import Mathlib

/-!
Verification of the SN/X static-analysis and execution pipeline.

This file is a shallow embedding, in Lean 4, of the parts of the `snx`
Python package that the verified properties talk about: the 16-bit word
helpers (`word.py`), the opcode set and IR (`ast.py`), the instruction
encoder and disassembler (`encoding.py`), the CFG builder and the
infinite-loop detector (`cfg.py`), the diagnostic collector
(`diagnostics.py`), the dataflow analyzer (`dataflow.py`), the C010
reporting fragment of the static checker (`checker.py`), and the
simulator (`simulator.py`).

Python `int` is modelled as `Int` (with explicit masking via `% 2^w`
where the source masks), Python `dict` as association lists, and Python
exceptions / `None` results as `Option`.  Source spans and token
metadata are carried only where a verified property mentions them
(diagnostics); operand nodes keep their semantic payload (indexes,
offsets, label names) and drop the purely presentational `text`/`span`
fields that no property consults.
-/

namespace SNX

/-! ### word.py : 16-bit and 8-bit two's-complement helpers -/

def WORD_MASK : Nat := 0xFFFF

def IMM8_MASK : Nat := 0xFF

/-- Embedding of `word.word`: `value & 0xFFFF`.  For a Python `int` of
either sign, `x & 0xFFFF` equals the mathematical residue `x mod 2^16`,
which is what `Int.emod` by a positive modulus computes. -/
def word (value : Int) : Nat :=
  (value % 65536).toNat

/-- Embedding of `word.signed16`: reinterpret the low 16 bits in two's
complement, yielding a value in `[-32768, 32767]`. -/
def signed16 (value : Int) : Int :=
  let w : Int := value % 65536
  if w ≥ 0x8000 then w - 65536 else w

/-- Embedding of `word.signed8`: reinterpret the low 8 bits in two's
complement, yielding a value in `[-128, 127]`. -/
def signed8 (value : Int) : Int :=
  let b : Int := value % 256
  if b ≥ 0x80 then b - 256 else b

/-- Embedding of `word.normalize_imm8`: `signed8(value & 0xFF)`. -/
def normalize_imm8 (value : Int) : Int :=
  signed8 (value % 256)

/-! ### ast.py : opcodes, operands, IR -/

/-- The opcode universe of the pipeline, as named by
`encoding.OPCODE_TO_INT`, the simulator and the dataflow analyzer
(which all mention `SUB`, `IN` and `OUT` in addition to the members
that `ast.Opcode` itself declares). -/
inductive Opcode where
  | ADD | AND | SUB | SLT | NOT | SR | LDA | LD | ST | IN | OUT | BZ | BAL | HLT
  deriving DecidableEq, Repr

/-- Embedding of Python `str.upper` (uppercase every character). -/
def strUpper (s : String) : String := String.mk (s.data.map Char.toUpper)

/-- Embedding of `ast.Opcode.from_str`: `cls[s.upper()]` looks the
uppercased string up among the members that the `Opcode` enum in
`ast.py` actually declares — `ADD, AND, SLT, NOT, SR, LDA, LD, ST, BZ,
BAL, HLT` — and returns `None` on a `KeyError`.  The enum body in
`ast.py` declares no `SUB`, `IN` or `OUT` member, so those mnemonics
fall through to `None`. -/
def Opcode.from_str (s : String) : Option Opcode :=
  match strUpper s with
  | "ADD" => some .ADD
  | "AND" => some .AND
  | "SLT" => some .SLT
  | "NOT" => some .NOT
  | "SR" => some .SR
  | "LDA" => some .LDA
  | "LD" => some .LD
  | "ST" => some .ST
  | "BZ" => some .BZ
  | "BAL" => some .BAL
  | "HLT" => some .HLT
  | _ => none

/-- Operand variants (`ast.RegisterOperand`, `ast.AddressOperand`,
`ast.LabelRefOperand`), keeping the semantic payload of each node. -/
inductive Operand where
  | register (index : Nat)
  | address (offset : Int) (base : Nat)
  | labelRef (name : String)
  deriving DecidableEq, Repr

/-- Embedding of `ast.InstructionIR`. -/
structure InstructionIR where
  opcode : Opcode
  operands : List Operand
  text : String
  pc : Nat
  deriving DecidableEq, Repr

/-- Embedding of `ast.IRProgram`; the label dict becomes an association
list keyed by the normalized (uppercased) label name. -/
structure IRProgram where
  instructions : List InstructionIR
  labels : List (String × Nat)
  deriving Repr

/-- Python `dict.get(key, default)` over an association list. -/
def dictGetD (m : List (String × Nat)) (key : String) (dflt : Nat) : Nat :=
  match m.lookup key with
  | some v => v
  | none => dflt

/-! ### encoding.py : encoder and disassembler -/

/-- Embedding of `encoding.OPCODE_TO_INT`. -/
def OPCODE_TO_INT : Opcode → Nat
  | .ADD => 0x0
  | .AND => 0x1
  | .SUB => 0x2
  | .SLT => 0x3
  | .NOT => 0x4
  | .SR => 0x6
  | .HLT => 0x7
  | .LD => 0x8
  | .ST => 0x9
  | .LDA => 0xA
  | .IN => 0xC
  | .OUT => 0xD
  | .BZ => 0xE
  | .BAL => 0xF

/-- Embedding of `encoding.INT_TO_OPCODE`, the inverse dict of
`OPCODE_TO_INT`. -/
def INT_TO_OPCODE : Nat → Option Opcode
  | 0x0 => some .ADD
  | 0x1 => some .AND
  | 0x2 => some .SUB
  | 0x3 => some .SLT
  | 0x4 => some .NOT
  | 0x6 => some .SR
  | 0x7 => some .HLT
  | 0x8 => some .LD
  | 0x9 => some .ST
  | 0xA => some .LDA
  | 0xC => some .IN
  | 0xD => some .OUT
  | 0xE => some .BZ
  | 0xF => some .BAL
  | _ => none

/-- Embedding of `encoding.encode_instruction`.  `EncodingError` is
modelled as `none`.  The Python `imm8 = addr_op.offset & IMM8_MASK`
computes the residue of the (possibly negative) offset modulo 256. -/
def encode_instruction (inst : InstructionIR) (labels : List (String × Nat)) : Option Nat :=
  let op_int := OPCODE_TO_INT inst.opcode
  match inst.opcode, inst.operands with
  | .ADD, [.register dest, .register src1, .register src2]
  | .AND, [.register dest, .register src1, .register src2]
  | .SUB, [.register dest, .register src1, .register src2]
  | .SLT, [.register dest, .register src1, .register src2] =>
      some ((op_int <<< 12) ||| (src1 <<< 10) ||| (src2 <<< 8) ||| (dest <<< 6))
  | .ADD, _ | .AND, _ | .SUB, _ | .SLT, _ => none
  | .NOT, [.register dest, .register src]
  | .SR, [.register dest, .register src] =>
      some ((op_int <<< 12) ||| (src <<< 10) ||| (dest <<< 6))
  | .NOT, _ | .SR, _ => none
  | .HLT, _ => some (op_int <<< 12)
  | .LD, [.register dest, .address offset base]
  | .ST, [.register dest, .address offset base]
  | .LDA, [.register dest, .address offset base] =>
      some ((op_int <<< 12) ||| (dest <<< 10) ||| (base <<< 8) ||| (offset % 256).toNat)
  | .LD, _ | .ST, _ | .LDA, _ => none
  | .IN, [.register dest] => some ((op_int <<< 12) ||| (dest <<< 10))
  | .IN, _ => none
  | .OUT, [.register src] => some ((op_int <<< 12) ||| (src <<< 10))
  | .OUT, _ => none
  | .BZ, [.register cond, .labelRef name] =>
      -- NOTE (from the source): addition, not bitwise OR, so that a label
      -- PC above 0x3FF overflows into the register and opcode fields.
      some (word (((op_int <<< 12) : Nat) + (cond <<< 10) + dictGetD labels name 0))
  | .BZ, _ => none
  | .BAL, [.register link, .labelRef name] =>
      some (word (((op_int <<< 12) : Nat) + (link <<< 10) + dictGetD labels name 0))
  | .BAL, [.register link, .address offset base] =>
      some ((op_int <<< 12) ||| (link <<< 10) ||| (base <<< 8) ||| (offset % 256).toNat)
  | .BAL, _ => none

/-- The tagged record returned by `encoding.decode_word` (a Python dict
whose key set depends on the instruction type). -/
inductive Decoded where
  | unknown (raw : Nat)
  | rType (opcode : Opcode) (dest src1 src2 : Nat)
  | r1Type (opcode : Opcode) (dest src : Nat)
  | r0Type (opcode : Opcode)
  | iType (opcode : Opcode) (dest base imm : Nat)
  | inType (opcode : Opcode) (dest : Nat)
  | outType (opcode : Opcode) (src : Nat)
  | bzType (opcode : Opcode) (condReg target : Nat)
  | balType (opcode : Opcode) (linkReg base imm target10 : Nat)
  deriving DecidableEq, Repr

/-- Embedding of `encoding.decode_word`: split a 16-bit word into its
OP/RA/RB/RC/IMM/TARGET10 fields according to the opcode nibble. -/
def decode_word (w : Nat) : Decoded :=
  let w := w &&& 0xFFFF
  let op_int := (w >>> 12) &&& 0xF
  match INT_TO_OPCODE op_int with
  | none => .unknown w
  | some opcode =>
    match opcode with
    | .ADD | .AND | .SUB | .SLT =>
        .rType opcode ((w >>> 6) &&& 0x3) ((w >>> 10) &&& 0x3) ((w >>> 8) &&& 0x3)
    | .NOT | .SR =>
        .r1Type opcode ((w >>> 6) &&& 0x3) ((w >>> 10) &&& 0x3)
    | .HLT => .r0Type opcode
    | .LD | .ST | .LDA =>
        .iType opcode ((w >>> 10) &&& 0x3) ((w >>> 8) &&& 0x3) (w &&& 0xFF)
    | .IN => .inType opcode ((w >>> 10) &&& 0x3)
    | .OUT => .outType opcode ((w >>> 10) &&& 0x3)
    | .BZ => .bzType opcode ((w >>> 10) &&& 0x3) (w &&& 0x3FF)
    | .BAL => .balType opcode ((w >>> 10) &&& 0x3) ((w >>> 8) &&& 0x3) (w &&& 0xFF) (w &&& 0x3FF)

/-- The structural view of an instruction, written from the spec's
round-trip invariant: the tagged record whose opcode and register /
base / immediate fields are the instruction's own operand values
(`decode_word(encode_instruction(i)) == structural_view(i)`).  The
immediate field is the operand's own (in-range, hence nonnegative)
offset; for BAL-to-address the 10-bit target field is determined by
the base and immediate fields (`base <<< 8 ||| imm`). -/
def structural_view (inst : InstructionIR) : Decoded :=
  match inst.opcode, inst.operands with
  | .ADD, [.register dest, .register src1, .register src2]
  | .AND, [.register dest, .register src1, .register src2]
  | .SUB, [.register dest, .register src1, .register src2]
  | .SLT, [.register dest, .register src1, .register src2] =>
      .rType inst.opcode dest src1 src2
  | .NOT, [.register dest, .register src]
  | .SR, [.register dest, .register src] =>
      .r1Type inst.opcode dest src
  | .HLT, _ => .r0Type .HLT
  | .LD, [.register dest, .address offset base]
  | .ST, [.register dest, .address offset base]
  | .LDA, [.register dest, .address offset base] =>
      .iType inst.opcode dest base offset.toNat
  | .IN, [.register dest] => .inType .IN dest
  | .OUT, [.register src] => .outType .OUT src
  | .BAL, [.register link, .address offset base] =>
      .balType .BAL link base offset.toNat ((base <<< 8) ||| offset.toNat)
  | _, _ => .unknown 0

/-- The operand precondition of the round-trip claim: the instruction
carries the operand shape of its opcode's signature with register and
base indices in `[0, 4)` and the 8-bit offset field in range; the
claim's exclusions (BZ, and BAL with a label operand) fall outside the
precondition. -/
def in_range_shape (inst : InstructionIR) : Prop :=
  match inst.opcode, inst.operands with
  | .ADD, [.register d, .register s1, .register s2]
  | .AND, [.register d, .register s1, .register s2]
  | .SUB, [.register d, .register s1, .register s2]
  | .SLT, [.register d, .register s1, .register s2] => d < 4 ∧ s1 < 4 ∧ s2 < 4
  | .NOT, [.register d, .register s]
  | .SR, [.register d, .register s] => d < 4 ∧ s < 4
  | .HLT, [] => True
  | .LD, [.register d, .address off b]
  | .ST, [.register d, .address off b]
  | .LDA, [.register d, .address off b] => d < 4 ∧ b < 4 ∧ 0 ≤ off ∧ off < 256
  | .IN, [.register d] => d < 4
  | .OUT, [.register s] => s < 4
  | .BAL, [.register l, .address off b] => l < 4 ∧ b < 4 ∧ 0 ≤ off ∧ off < 256
  | _, _ => False

/-! ### diagnostics.py : severities, spans, diagnostics, collector -/

/-- Embedding of `diagnostics.Severity`. -/
inductive Severity where
  | ERROR | WARNING | INFO
  deriving DecidableEq, Repr

/-- Embedding of `diagnostics.SourceSpan`. -/
structure SourceSpan where
  start_line : Nat
  start_col : Nat
  end_line : Nat
  end_col : Nat
  deriving DecidableEq, Repr

/-- Embedding of `diagnostics.RelatedInfo`. -/
structure RelatedInfo where
  message : String
  span : SourceSpan
  deriving DecidableEq, Repr

/-- Embedding of `diagnostics.Diagnostic`. -/
structure Diagnostic where
  code : String
  message : String
  severity : Severity
  span : SourceSpan
  related : List RelatedInfo
  deriving DecidableEq, Repr

/-- State of `diagnostics.DiagnosticCollector`: the append-only list
and the per-line primary map (`_line_primary`). -/
structure CollectorState where
  diags : List Diagnostic
  linePrimary : List (Nat × Diagnostic)
  deriving DecidableEq, Repr

def CollectorState.init : CollectorState := ⟨[], []⟩

/-- Embedding of `DiagnosticCollector.add`: append a diagnostic. -/
def collectorAdd (st : CollectorState) (code message : String) (severity : Severity)
    (span : SourceSpan) (related : List RelatedInfo) : CollectorState × Diagnostic :=
  let d : Diagnostic := ⟨code, message, severity, span, related⟩
  ({ st with diags := st.diags ++ [d] }, d)

/-- Embedding of `DiagnosticCollector.add_error` (fixed ERROR severity). -/
def collectorAddError (st : CollectorState) (code message : String)
    (span : SourceSpan) (related : List RelatedInfo) : CollectorState × Diagnostic :=
  collectorAdd st code message .ERROR span related

/-- Embedding of `DiagnosticCollector.add_line_error`: if the line
already has a primary, attach one related-info pointing at that
primary's span; then append the error, and register it as the line's
primary when the line had none. -/
def cascadeMsg (code : String) : String :=
  "이 오류는 같은 줄의 이전 오류(" ++ code ++ ")의 영향일 수 있습니다."

def collectorAddLineError (st : CollectorState) (line : Nat) (code message : String)
    (span : SourceSpan) : CollectorState × Diagnostic :=
  let related : List RelatedInfo :=
    match st.linePrimary.lookup line with
    | some primary => [⟨cascadeMsg primary.code, primary.span⟩]
    | none => []
  let (st1, d) := collectorAddError st code message span related
  let st2 :=
    match st1.linePrimary.lookup line with
    | some _ => st1
    | none => { st1 with linePrimary := st1.linePrimary ++ [(line, d)] }
  (st2, d)

/-- One call to a reporting operation of the collector (the spec's
public reporting API: `add` with an explicit severity — `add_error` /
`add_warning` are `add` with a fixed severity — and `add_line_error`). -/
inductive CollectorOp where
  | add (code message : String) (severity : Severity) (span : SourceSpan)
      (related : List RelatedInfo)
  | addLineError (line : Nat) (code message : String) (span : SourceSpan)
  deriving Repr

/-- Run one operation, returning the new state and the emitted
diagnostic tagged with `some line` when it came from `add_line_error`. -/
def runCollectorOp (st : CollectorState) : CollectorOp → CollectorState × (Option Nat × Diagnostic)
  | .add code message severity span related =>
      let (st1, d) := collectorAdd st code message severity span related
      (st1, (none, d))
  | .addLineError line code message span =>
      let (st1, d) := collectorAddLineError st line code message span
      (st1, (some line, d))

/-- Run a sequence of collector operations from a given state,
collecting the emitted diagnostics (tagged with their `add_line_error`
line, if any) in order. -/
def runCollectorOps (st : CollectorState) :
    List CollectorOp → CollectorState × List (Option Nat × Diagnostic)
  | [] => (st, [])
  | op :: ops =>
      let (st1, e) := runCollectorOp st op
      let (st2, es) := runCollectorOps st1 ops
      (st2, e :: es)

/-- The diagnostics that a run emitted through `add_line_error` for a
given line, in emission order. -/
def lineErrorEmits (emits : List (Option Nat × Diagnostic)) (line : Nat) : List Diagnostic :=
  emits.filterMap (fun e => if e.1 = some line then some e.2 else none)

/-! ### cfg.py : control-flow graph construction -/

/-- Embedding of `cfg.EdgeKind`. -/
inductive EdgeKind where
  | FALLTHROUGH | BRANCH_TAKEN | BRANCH_NOT_TAKEN | CALL | RETURN | UNCONDITIONAL
  deriving DecidableEq, Repr

/-- Embedding of `cfg.CFGEdge`; the target is an `Int` because
BAL-to-address edges use the sentinel target `-1`. -/
structure CFGEdge where
  source : Nat
  target : Int
  kind : EdgeKind
  deriving DecidableEq, Repr

/-- Embedding of `cfg.BasicBlock`. -/
structure BasicBlock where
  start_pc : Nat
  end_pc : Nat
  instructions : List InstructionIR
  successors : List Int
  predecessors : List Nat
  is_entry : Bool
  is_exit : Bool
  labels : List String
  deriving Repr

/-- Embedding of `cfg.CFG`; the `blocks` dict keyed by `start_pc`
becomes an association list in insertion (= ascending `start_pc`)
order, and `exit_pcs` keeps its insertion order as a list. -/
structure CFG where
  blocks : List (Nat × BasicBlock)
  edges : List CFGEdge
  entry_pc : Nat
  exit_pcs : List Nat
  labels : List (String × Nat)
  reverse_labels : List (Nat × List String)
  deriving Repr

def insertSortedNat (x : Nat) : List Nat → List Nat
  | [] => [x]
  | y :: ys => if x ≤ y then x :: y :: ys else y :: insertSortedNat x ys

def sortNat (l : List Nat) : List Nat := l.foldr insertSortedNat []

/-- Membership-deduplicating accumulation, mirroring `set.add`. -/
def setAdd (s : List Nat) (x : Nat) : List Nat := if x ∈ s then s else s ++ [x]

/-- Update the value at a key of an association list in place. -/
def alUpdate (k : Nat) (f : BasicBlock → BasicBlock) :
    List (Nat × BasicBlock) → List (Nat × BasicBlock)
  | [] => []
  | (k0, b) :: rest =>
      if k0 = k then (k0, f b) :: rest else (k0, b) :: alUpdate k f rest

/-- Update the first block whose span `[start_pc, end_pc]` contains the
given pc (the linear scan in the predecessor/successor fill loop). -/
def alUpdateContaining (pc : Nat) (f : BasicBlock → BasicBlock) :
    List (Nat × BasicBlock) → List (Nat × BasicBlock)
  | [] => []
  | (k0, b) :: rest =>
      if b.start_pc ≤ pc ∧ pc ≤ b.end_pc then (k0, f b) :: rest
      else (k0, b) :: alUpdateContaining pc f rest

/-- Block-start collection pass of `cfg.build_cfg` (one instruction). -/
def blockStartsOfInst (labels : List (String × Nat)) (numInsts : Nat)
    (starts : List Nat) (inst : InstructionIR) : List Nat :=
  match inst.opcode with
  | .BZ =>
      let starts :=
        match inst.operands.get? 1 with
        | some (.labelRef name) =>
            match labels.lookup name with
            | some target => setAdd starts target
            | none => starts
        | _ => starts
      setAdd starts (inst.pc + 1)
  | .BAL =>
      let starts :=
        match inst.operands.get? 1 with
        | some (.labelRef name) =>
            match labels.lookup name with
            | some target => setAdd starts target
            | none => starts
        | _ => starts
      setAdd starts (inst.pc + 1)
  | .HLT => if inst.pc + 1 < numInsts then setAdd starts (inst.pc + 1) else starts
  | _ => starts

/-- Block construction pass of `cfg.build_cfg`: walk the sorted start
list; a start at or past the instruction count is skipped; otherwise
the block ends just before the next start (or at the last pc). -/
def mkBlocks (instructions : List InstructionIR)
    (reverse_labels : List (Nat × List String)) :
    List Nat → List (Nat × BasicBlock)
  | [] => []
  | start_pc :: rest =>
      if start_pc ≥ instructions.length then mkBlocks instructions reverse_labels rest
      else
        let end_pc :=
          match rest.head? with
          | some nxt => nxt - 1
          | none => instructions.length - 1
        let block_instructions :=
          instructions.filter (fun i => start_pc ≤ i.pc ∧ i.pc ≤ end_pc)
        let block : BasicBlock :=
          { start_pc := start_pc, end_pc := end_pc, instructions := block_instructions,
            successors := [], predecessors := [], is_entry := false, is_exit := false,
            labels := ((reverse_labels.lookup start_pc).getD []) }
        (start_pc, block) :: mkBlocks instructions reverse_labels rest

/-- Edge-emission pass of `cfg.build_cfg` for one block: mark HLT
blocks as exits and emit the typed out-edge(s) of the block's last
instruction. -/
def edgesOfBlock (labels : List (String × Nat)) (numInsts : Nat) (b : BasicBlock) :
    BasicBlock × List CFGEdge × List Nat :=
  match b.instructions.getLast? with
  | none => (b, [], [])
  | some last =>
    let last_pc := last.pc
    match last.opcode with
    | .HLT => ({ b with is_exit := true }, [], [last_pc])
    | .BZ =>
        let taken :=
          match last.operands.get? 1 with
          | some (.labelRef name) =>
              match labels.lookup name with
              | some target => [CFGEdge.mk last_pc target .BRANCH_TAKEN]
              | none => []
          | _ => []
        let notTaken :=
          if last_pc + 1 < numInsts then [CFGEdge.mk last_pc (last_pc + 1) .BRANCH_NOT_TAKEN]
          else []
        (b, taken ++ notTaken, [])
    | .BAL =>
        match last.operands.get? 1 with
        | some (.labelRef name) =>
            let call :=
              match labels.lookup name with
              | some target => [CFGEdge.mk last_pc target .CALL]
              | none => []
            let fall :=
              if last_pc + 1 < numInsts then [CFGEdge.mk last_pc (last_pc + 1) .FALLTHROUGH]
              else []
            (b, call ++ fall, [])
        | some (.address _ _) => (b, [CFGEdge.mk last_pc (-1) .RETURN], [])
        | _ => (b, [], [])
    | _ =>
        if last_pc + 1 < numInsts then
          (b, [CFGEdge.mk last_pc (last_pc + 1) .FALLTHROUGH], [])
        else (b, [], [])

def edgePhase (labels : List (String × Nat)) (numInsts : Nat) :
    List (Nat × BasicBlock) → List (Nat × BasicBlock) × List CFGEdge × List Nat
  | [] => ([], [], [])
  | (k, b) :: rest =>
      let (b1, es, exits) := edgesOfBlock labels numInsts b
      let (rest1, es2, exits2) := edgePhase labels numInsts rest
      ((k, b1) :: rest1, es ++ es2, exits ++ exits2)

/-- Predecessor/successor fill pass of `cfg.build_cfg` (one edge). -/
def fillPredSucc (blocks : List (Nat × BasicBlock)) (e : CFGEdge) :
    List (Nat × BasicBlock) :=
  let blocks :=
    if 0 ≤ e.target ∧ (blocks.lookup e.target.toNat).isSome then
      alUpdate e.target.toNat
        (fun b => { b with predecessors := b.predecessors ++ [e.source] }) blocks
    else blocks
  if 0 ≤ e.target then
    alUpdateContaining e.source
      (fun b =>
        if e.target ∈ b.successors then b
        else { b with successors := b.successors ++ [e.target] }) blocks
  else blocks

/-- Embedding of `cfg.build_cfg`. -/
def build_cfg (ir_program : IRProgram) : CFG :=
  let instructions := ir_program.instructions
  let labels := ir_program.labels
  if instructions.isEmpty then
    { blocks := [], edges := [], entry_pc := 0, exit_pcs := [], labels := labels,
      reverse_labels := [] }
  else
    let reverse_labels : List (Nat × List String) :=
      labels.foldl
        (fun acc p =>
          match acc.lookup p.2 with
          | some names =>
              acc.map (fun q => if q.1 = p.2 then (q.1, names ++ [p.1]) else q)
          | none => acc ++ [(p.2, [p.1])])
        []
    let starts0 := instructions.foldl (blockStartsOfInst labels instructions.length) [0]
    let starts1 := labels.foldl
      (fun acc p => if p.2 < instructions.length then setAdd acc p.2 else acc) starts0
    let sorted_starts := sortNat starts1
    let blocks0 := mkBlocks instructions reverse_labels sorted_starts
    let (blocks1, edges, exit_pcs) := edgePhase labels instructions.length blocks0
    let blocks2 := edges.foldl fillPredSucc blocks1
    let entry_pc := dictGetD labels ("main") 0
    let blocks3 :=
      if (blocks2.lookup entry_pc).isSome then
        alUpdate entry_pc (fun b => { b with is_entry := true }) blocks2
      else blocks2
    { blocks := blocks3, edges := edges, entry_pc := entry_pc, exit_pcs := exit_pcs,
      labels := labels, reverse_labels := reverse_labels }

/-! ### cfg.py : Tarjan SCCs and infinite-loop detection -/

/-- State threaded through `find_strongly_connected_components`'s
`strongconnect`.  The Lean list `stack` keeps its most recently pushed
element at the head (Python appends to and pops from the list's end). -/
structure TarjanState where
  counter : Nat
  stack : List Nat
  indexM : List (Nat × Nat)
  lowlinks : List (Nat × Nat)
  onStack : List Nat
  sccs : List (List Nat)
  deriving Repr

def alSetNat (m : List (Nat × Nat)) (k v : Nat) : List (Nat × Nat) :=
  match m with
  | [] => [(k, v)]
  | (k0, v0) :: rest => if k0 = k then (k0, v) :: rest else (k0, v0) :: alSetNat rest k v

def alGetNat (m : List (Nat × Nat)) (k : Nat) : Nat := (m.lookup k).getD 0

/-- Successor query used by Tarjan: real edges only (target ≥ 0). -/
def tarjanSuccessors (edges : List CFGEdge) (pc : Nat) : List Nat :=
  edges.filterMap (fun e =>
    if e.source = pc ∧ 0 ≤ e.target then some e.target.toNat else none)

/-- The stack-popping loop closing an SCC root: pop until `v` comes off
the stack, collecting the popped pcs. -/
def tarjanPop (v : Nat) : List Nat → List Nat × List Nat
  | [] => ([], [])
  | w :: rest =>
      if w = v then (rest, [w])
      else
        let (stack1, scc) := tarjanPop v rest
        (stack1, w :: scc)

/-- Embedding of `strongconnect` in
`cfg.find_strongly_connected_components`, with explicit recursion fuel
(the recursion depth is bounded by the number of yet-unindexed pcs, so
any fuel of at least `|pcs| + 1` makes the fuel guard unreachable).
The source's successor loop is the left fold over the successors: each
iteration updates the Tarjan state in place. -/
def strongconnect (edges : List CFGEdge) : Nat → Nat → TarjanState → TarjanState
  | 0, _, st => st
  | fuel + 1, v, st =>
      let st : TarjanState :=
        { st with
          indexM := alSetNat st.indexM v st.counter
          lowlinks := alSetNat st.lowlinks v st.counter
          counter := st.counter + 1
          stack := v :: st.stack
          onStack := v :: st.onStack }
      let st := (tarjanSuccessors edges v).foldl
        (fun st w =>
          if (st.indexM.lookup w).isNone then
            let st := strongconnect edges fuel w st
            { st with
              lowlinks := alSetNat st.lowlinks v
                (min (alGetNat st.lowlinks v) (alGetNat st.lowlinks w)) }
          else if w ∈ st.onStack then
            { st with
              lowlinks := alSetNat st.lowlinks v
                (min (alGetNat st.lowlinks v) (alGetNat st.indexM w)) }
          else st)
        st
      if alGetNat st.lowlinks v = alGetNat st.indexM v then
        let (stack1, scc) := tarjanPop v st.stack
        { st with
          stack := stack1
          onStack := st.onStack.filter (fun w => ¬ w ∈ scc)
          sccs := st.sccs ++ [scc] }
      else st

/-- Embedding of `cfg.find_strongly_connected_components`.  `all_pcs`
is a Python set of instruction pcs; per the spec the outer iteration
order over it is ascending by pc. -/
def find_strongly_connected_components (cfg : CFG) : List (List Nat) :=
  let all_pcs :=
    sortNat ((cfg.blocks.foldl
      (fun acc p => p.2.instructions.foldl (fun a i => setAdd a i.pc) acc) []))
  let init : TarjanState :=
    { counter := 0, stack := [], indexM := [], lowlinks := [], onStack := [], sccs := [] }
  let final := all_pcs.foldl
    (fun st pc =>
      if (st.indexM.lookup pc).isNone then
        strongconnect cfg.edges (all_pcs.length + 1) pc st
      else st)
    init
  final.sccs

/-- The test `edge.source == pc and edge.target not in scc and edge.target >= 0`
of the outgoing-edge loop in `cfg.find_infinite_loop_sccs`. -/
def leavesScc (full : List Nat) (pc : Nat) (e : CFGEdge) : Bool :=
  e.source == pc && full.all (fun q => (q : Int) != e.target) && decide (0 ≤ e.target)

/-- The exit / outgoing-edge scan of `cfg.find_infinite_loop_sccs` over
one SCC's members (`full` is the whole SCC for the membership test),
with the source's early exits: stop at the first exit pc, or at the
first pc with an edge leaving the SCC to a nonnegative target.  Returns
`(has_exit, has_external_edge)`. -/
def sccScan (cfg : CFG) (full : List Nat) : List Nat → Bool × Bool
  | [] => (false, false)
  | pc :: rest =>
      if pc ∈ cfg.exit_pcs then (true, false)
      else if cfg.edges.any (leavesScc full pc) then (false, true)
      else sccScan cfg full rest

/-- The qualification test of `cfg.find_infinite_loop_sccs` for one
SCC: a single-node SCC must have a self-loop; then the SCC must reach
the end of the scan with neither an exit pc nor an escaping edge. -/
def sccQualifies (cfg : CFG) (scc : List Nat) : Bool :=
  (if scc.length ≤ 1 then
    match scc.head? with
    | some pc => cfg.edges.any (fun e => e.source == pc && e.target == (pc : Int))
    | none => false
   else true)
  && (let p := sccScan cfg scc scc
      !p.1 && !p.2)

/-- Embedding of `cfg.find_infinite_loop_sccs`: keep the SCCs that
have no exit pc and no edge to a nonnegative pc outside the SCC, where
a single-node SCC is considered only if it has a self-loop. -/
def find_infinite_loop_sccs (cfg : CFG) : List (List Nat) :=
  (find_strongly_connected_components cfg).filter (sccQualifies cfg)

/-! ### checker.py : the C010 reporting fragment -/

def listMinNat : List Nat → Nat
  | [] => 0
  | x :: xs => xs.foldl Nat.min x

def insertSortedStr (x : String) : List String → List String
  | [] => [x]
  | y :: ys => if x ≤ y then x :: y :: ys else y :: insertSortedStr x ys

def sortStr (l : List String) : List String := l.foldr insertSortedStr []

def dedupStr : List String → List String
  | [] => []
  | x :: xs => x :: dedupStr (xs.filter (· ≠ x))
termination_by l => l.length
decreasing_by
  simp only [List.length_cons]
  exact Nat.lt_succ_of_le (List.length_filter_le _ _)

/-- The C010 message of `checker.StaticChecker._check_cfg_issues`:
names the sorted, deduplicated labels inside the SCC when any exist. -/
def c010Message (cfg : CFG) (scc : List Nat) : String :=
  let labels_in_scc := scc.foldl (fun acc pc => acc ++ ((cfg.reverse_labels.lookup pc).getD [])) []
  if labels_in_scc.isEmpty then
    "Infinite loop detected: no path to HLT"
  else
    "Infinite loop detected: no path to HLT from " ++
      String.intercalate (", ") (dedupStr (sortStr labels_in_scc))

/-- What the checker's C010 loop would emit for one offending SCC,
ignoring the per-line deduplication: `none` when the SCC's lowest pc
has no source line or the line has no recorded span. -/
def c010For (cfg : CFG) (pc_to_line : List (Nat × Nat))
    (line_spans : List (Nat × SourceSpan)) (scc : List Nat) : Option Diagnostic :=
  match pc_to_line.lookup (listMinNat scc) with
  | none => none
  | some line_no =>
      match line_spans.lookup line_no with
      | none => none
      | some span => some ⟨"C010", c010Message cfg scc, .ERROR, span, []⟩

/-- The C010 half of `checker.StaticChecker._check_cfg_issues`: walk
the offending SCCs, skip an SCC whose lowest pc resolves to an
already-reported line, and emit a C010 error at the span of the line of
the SCC's lowest pc. -/
def checkCfgC010Loop (cfg : CFG) (pc_to_line : List (Nat × Nat))
    (line_spans : List (Nat × SourceSpan)) :
    List (List Nat) → List Nat → List Diagnostic
  | [], _ => []
  | scc :: rest, reported_lines =>
      match pc_to_line.lookup (listMinNat scc) with
      | none => checkCfgC010Loop cfg pc_to_line line_spans rest reported_lines
      | some line_no =>
          if line_no ∈ reported_lines then
            checkCfgC010Loop cfg pc_to_line line_spans rest reported_lines
          else
            let reported_lines := reported_lines ++ [line_no]
            match line_spans.lookup line_no with
            | none => checkCfgC010Loop cfg pc_to_line line_spans rest reported_lines
            | some span =>
                ⟨"C010", c010Message cfg scc, .ERROR, span, []⟩ ::
                  checkCfgC010Loop cfg pc_to_line line_spans rest reported_lines

/-- The list of C010 diagnostics the static checker appends for a CFG,
given the checker's `_pc_to_line` and `_line_spans` maps. -/
def check_cfg_c010 (cfg : CFG) (pc_to_line : List (Nat × Nat))
    (line_spans : List (Nat × SourceSpan)) : List Diagnostic :=
  checkCfgC010Loop cfg pc_to_line line_spans (find_infinite_loop_sccs cfg) []

/-! ### dataflow.py : abstract-interpretation dataflow -/

/-- Embedding of `dataflow.ValueState`. -/
inductive ValueState where
  | UNINIT | DATA | RETURN_ADDR | UNKNOWN
  deriving DecidableEq, Repr

/-- Embedding of `ValueState.merge_with`. -/
def ValueState.merge_with (self other : ValueState) : ValueState :=
  if self = other then self
  else if self = .UNINIT ∨ other = .UNINIT then .UNKNOWN
  else if self = .UNKNOWN ∨ other = .UNKNOWN then .UNKNOWN
  else .UNKNOWN

def alSetVS {κ : Type} [DecidableEq κ] (m : List (κ × ValueState)) (k : κ) (v : ValueState) :
    List (κ × ValueState) :=
  match m with
  | [] => [(k, v)]
  | (k0, v0) :: rest => if k0 = k then (k0, v) :: rest else (k0, v0) :: alSetVS rest k v

def alGetVS {κ : Type} [DecidableEq κ] (m : List (κ × ValueState)) (k : κ) : ValueState :=
  (m.lookup k).getD .UNINIT

/-- Python dict equality (key sets and values agree, order ignored),
used by the fixpoint's changed-state test `merged != self._states[pc]`. -/
def dictEqVS {κ : Type} [DecidableEq κ] (xs ys : List (κ × ValueState)) : Bool :=
  xs.all (fun p => ys.lookup p.1 = some p.2) && ys.all (fun p => xs.lookup p.1 = some p.2)

/-- Embedding of `dataflow.AbstractState` (register and stack-slot
dicts as association lists, plus the tracked sp delta). -/
structure AbstractState where
  registers : List (Nat × ValueState)
  stack_slots : List (Int × ValueState)
  sp_offset : Int
  deriving Repr

def AbstractState.empty : AbstractState := ⟨[], [], 0⟩

/-- Key union in first-then-second order (the Python key-set union). -/
def keyUnion {κ : Type} [DecidableEq κ] (xs ys : List (κ × ValueState)) : List κ :=
  let ks := xs.map Prod.fst
  ks ++ (ys.map Prod.fst).filter (fun k => ¬ k ∈ ks)

/-- Embedding of `AbstractState.merge_with`: merge each dict pointwise
over the union of key sets (missing key = UNINIT), and join the sp
offsets by `max`. -/
def AbstractState.merge_with (self other : AbstractState) : AbstractState :=
  let registers := (keyUnion self.registers other.registers).map
    (fun k => (k, (alGetVS self.registers k).merge_with (alGetVS other.registers k)))
  let stack_slots := (keyUnion self.stack_slots other.stack_slots).map
    (fun k => (k, (alGetVS self.stack_slots k).merge_with (alGetVS other.stack_slots k)))
  ⟨registers, stack_slots, max self.sp_offset other.sp_offset⟩

/-- Embedding of `AbstractState.__eq__` (dict equality on both maps
plus equal sp offsets). -/
def AbstractState.eqb (self other : AbstractState) : Bool :=
  dictEqVS self.registers other.registers
    && dictEqVS self.stack_slots other.stack_slots
    && self.sp_offset == other.sp_offset

/-- Embedding of `dataflow.DataflowIssue`. -/
structure DataflowIssue where
  pc : Nat
  code : String
  message : String
  severity : String
  instruction_text : String
  deriving DecidableEq, Repr

/-- Canonical rendering of an address operand's source text
(`AddressOperand.text`), used only inside issue messages; the embedding
drops the original lexeme, so the canonical `off($base)` spelling
stands in for it. -/
def addrText (offset : Int) (base : Nat) : String :=
  toString offset ++ "($" ++ toString base ++ ")"

/-- Embedding of `DataflowAnalyzer._get_stack_slot_key`: slots are
keyed off the stack pointer (register 3) or the static segment
(register 0, sentinel 1000); any other base is untrackable. -/
def get_stack_slot_key (offset : Int) (base : Nat) (state : AbstractState) : Option Int :=
  let eff_offset := normalize_imm8 offset
  if base = 3 then some (state.sp_offset + eff_offset)
  else if base = 0 then some (1000 + eff_offset)
  else none

/-- Embedding of `DataflowAnalyzer._transfer`: the per-instruction
abstract transfer, returning the out state, the successor pc list (the
indirect-return sentinel `-1` included) and the issues this execution
appends.  Operand patterns mirror the source's `isinstance` guards;
the analyzer only ever runs on arity-validated IR. -/
def dataflowTransfer (cfgLabels : List (String × Nat)) (inst : InstructionIR)
    (in_state : AbstractState) : AbstractState × List Int × List DataflowIssue :=
  let pc := inst.pc
  match inst.opcode, inst.operands with
  | .LDA, [.register dest, .address offset base] =>
      let out :=
        { in_state with registers := alSetVS in_state.registers dest .DATA }
      let out :=
        if dest = 3 ∧ base = 3 then
          { out with sp_offset := out.sp_offset + normalize_imm8 offset }
        else out
      (out, [((pc + 1 : Nat) : Int)], [])
  | .LDA, _ => (in_state, [((pc + 1 : Nat) : Int)], [])
  | .LD, [.register dest, .address offset base] =>
      (match get_stack_slot_key offset base in_state with
       | some slot_key =>
           let slot_state := alGetVS in_state.stack_slots slot_key
           if slot_state = .UNINIT then
             ({ in_state with registers := alSetVS in_state.registers dest .UNKNOWN },
              [((pc + 1 : Nat) : Int)],
              [⟨pc, "D001", "Reading from uninitialized memory at " ++ addrText offset base,
                "error", inst.text⟩])
           else if slot_state = .UNKNOWN then
             ({ in_state with registers := alSetVS in_state.registers dest .UNKNOWN },
              [((pc + 1 : Nat) : Int)],
              [⟨pc, "D002",
                "Reading from potentially uninitialized memory at " ++ addrText offset base,
                "warning", inst.text⟩])
           else
             ({ in_state with registers := alSetVS in_state.registers dest slot_state },
              [((pc + 1 : Nat) : Int)], [])
       | none =>
           ({ in_state with registers := alSetVS in_state.registers dest .UNKNOWN },
            [((pc + 1 : Nat) : Int)], []))
  | .LD, _ => (in_state, [((pc + 1 : Nat) : Int)], [])
  | .ST, [.register src, .address offset base] =>
      (match get_stack_slot_key offset base in_state with
       | some slot_key =>
           let src_state := alGetVS in_state.registers src
           ({ in_state with stack_slots := alSetVS in_state.stack_slots slot_key src_state },
            [((pc + 1 : Nat) : Int)], [])
       | none => (in_state, [((pc + 1 : Nat) : Int)], []))
  | .ST, _ => (in_state, [((pc + 1 : Nat) : Int)], [])
  | .ADD, (.register dest) :: _ | .AND, (.register dest) :: _
  | .SUB, (.register dest) :: _ | .SLT, (.register dest) :: _
  | .NOT, (.register dest) :: _ | .SR, (.register dest) :: _
  | .IN, (.register dest) :: _ =>
      ({ in_state with registers := alSetVS in_state.registers dest .DATA },
       [((pc + 1 : Nat) : Int)], [])
  | .ADD, _ | .AND, _ | .SUB, _ | .SLT, _ | .NOT, _ | .SR, _ | .IN, _ =>
      (in_state, [((pc + 1 : Nat) : Int)], [])
  | .OUT, _ => (in_state, [((pc + 1 : Nat) : Int)], [])
  | .BZ, [_, .labelRef name] =>
      (match cfgLabels.lookup name with
       | some target_pc => (in_state, [(target_pc : Int), ((pc + 1 : Nat) : Int)], [])
       | none => (in_state, [((pc + 1 : Nat) : Int)], []))
  | .BZ, _ => (in_state, [((pc + 1 : Nat) : Int)], [])
  | .BAL, [.register link, target_op] =>
      let out := { in_state with registers := alSetVS in_state.registers link .RETURN_ADDR }
      (match target_op with
       | .labelRef name =>
           (match cfgLabels.lookup name with
            | some target_pc => (out, [(target_pc : Int), ((pc + 1 : Nat) : Int)], [])
            | none => (out, [], []))
       | .address _ base =>
           let reg_state := alGetVS in_state.registers base
           let issues :=
             if reg_state = .UNINIT then
               [⟨pc, "C001",
                 "Return jump using uninitialized register $" ++ toString base,
                 "error", inst.text⟩]
             else if reg_state = .DATA then
               [⟨pc, "C002",
                 "Return jump using data value in $" ++ toString base ++
                   " instead of return address",
                 "error", inst.text⟩]
             else if reg_state = .UNKNOWN then
               [⟨pc, "C003",
                 "Return jump using potentially invalid return address in $" ++ toString base,
                 "warning", inst.text⟩]
             else []
           (out, [(-1 : Int)], issues)
       | .register _ => (out, [], []))
  | .BAL, _ => (in_state, [], [])
  | .HLT, _ => (in_state, [], [])

/-- Embedding of `dataflow.DataflowResult`, instrumented with the two
resource counters the termination contract talks about: `popCount`
counts worklist pops (the source's `max_iterations` budget consumption)
and `transferCounts` counts, per pc, how many times `_transfer` ran
(bounded by the source's `visited_count` clamp). -/
structure DataflowResult where
  issues : List DataflowIssue
  states_at_pc : List (Nat × AbstractState)
  unreachable_pcs : List Nat
  popCount : Nat
  transferCounts : List (Nat × Nat)
  deriving Repr

/-- Worklist-loop state of `DataflowAnalyzer.analyze`. -/
structure AnalyzeLoopState where
  worklist : List Nat
  states : List (Nat × AbstractState)
  issues : List DataflowIssue
  visited : List (Nat × Nat)
  popCount : Nat
  transferCounts : List (Nat × Nat)
  deriving Repr

def alSetState (m : List (Nat × AbstractState)) (k : Nat) (v : AbstractState) :
    List (Nat × AbstractState) :=
  match m with
  | [] => [(k, v)]
  | (k0, v0) :: rest => if k0 = k then (k0, v) :: rest else (k0, v0) :: alSetState rest k v

/-- Successor join of the fixpoint: merge the out state into each
successor's entry state and re-enqueue the successor when its state
changed (skipping the negative sentinel), exactly as in the source. -/
def joinSuccessors (out_state : AbstractState) :
    List Int → AnalyzeLoopState → AnalyzeLoopState
  | [], s => s
  | succ :: rest, s =>
      if succ < 0 then joinSuccessors out_state rest s
      else
        let succ_pc := succ.toNat
        let s :=
          match s.states.lookup succ_pc with
          | some cur =>
              let merged := cur.merge_with out_state
              if ¬ merged.eqb cur then
                { s with
                  states := alSetState s.states succ_pc merged
                  worklist :=
                    if succ_pc ∈ s.worklist then s.worklist else s.worklist ++ [succ_pc] }
              else s
          | none =>
              { s with
                states := alSetState s.states succ_pc out_state
                worklist :=
                  if succ_pc ∈ s.worklist then s.worklist else s.worklist ++ [succ_pc] }
        joinSuccessors out_state rest s

/-- One iteration body of the worklist loop of
`DataflowAnalyzer.analyze`, after the pop: skip pcs with no
instruction, bump the visit counter and skip past the 20-visit clamp,
otherwise run the transfer (appending its issues and bumping the
instrumentation counter) and join into the successors. -/
def analyzeStep (instByPc : List (Nat × InstructionIR)) (cfgLabels : List (String × Nat))
    (pc : Nat) (s : AnalyzeLoopState) : AnalyzeLoopState :=
  match instByPc.lookup pc with
  | none => s
  | some inst =>
      let s := { s with visited := alSetNat s.visited pc (alGetNat s.visited pc + 1) }
      if alGetNat s.visited pc > 20 then s
      else
        let in_state := (s.states.lookup pc).getD AbstractState.empty
        let t := dataflowTransfer cfgLabels inst in_state
        let s :=
          { s with
            issues := s.issues ++ t.2.2
            transferCounts :=
              alSetNat s.transferCounts pc (alGetNat s.transferCounts pc + 1) }
        joinSuccessors t.1 t.2.1 s

/-- The worklist loop of `DataflowAnalyzer.analyze`.  The fuel is the
source's `max_iterations` budget (`10·|instructions|`); one unit is
consumed per pop, so the loop is structurally terminating exactly
because the source bounds its iteration count. -/
def analyzeLoop (instByPc : List (Nat × InstructionIR)) (cfgLabels : List (String × Nat)) :
    Nat → AnalyzeLoopState → AnalyzeLoopState
  | 0, s => s
  | fuel + 1, s =>
      match s.worklist with
      | [] => s
      | pc :: rest =>
          analyzeLoop instByPc cfgLabels fuel
            (analyzeStep instByPc cfgLabels pc
              { s with worklist := rest, popCount := s.popCount + 1 })

/-- Embedding of `DataflowAnalyzer.analyze` (the entry point
`dataflow.analyze_dataflow` constructs the analyzer and calls this). -/
def DataflowAnalyzer_analyze (ir : IRProgram) (cfg : CFG) (reg_count : Nat) : DataflowResult :=
  if ir.instructions.isEmpty then
    { issues := [], states_at_pc := [], unreachable_pcs := [], popCount := 0,
      transferCounts := [] }
  else
    let instByPc : List (Nat × InstructionIR) :=
      ir.instructions.foldl
        (fun acc i =>
          match acc.lookup i.pc with
          | some _ => acc.map (fun p => if p.1 = i.pc then (p.1, i) else p)
          | none => acc ++ [(i.pc, i)])
        []
    let entry_state : AbstractState :=
      ⟨(0, .DATA) :: (List.range' 1 (reg_count - 1)).map (fun i => (i, ValueState.UNINIT)),
       [], 0⟩
    let entry_pc := cfg.entry_pc
    let init : AnalyzeLoopState :=
      { worklist := [entry_pc], states := [(entry_pc, entry_state)], issues := [],
        visited := [], popCount := 0, transferCounts := [] }
    let max_iterations := ir.instructions.length * 10
    let final := analyzeLoop instByPc cfg.labels max_iterations init
    let unreachable :=
      (instByPc.map Prod.fst).filter (fun pc => (final.states.lookup pc).isNone)
    { issues := final.issues, states_at_pc := final.states,
      unreachable_pcs := unreachable, popCount := final.popCount,
      transferCounts := final.transferCounts }

/-! ### simulator.py : the IR executor -/

/-- One invocation of the out-of-bounds hook
(`SNXSimulator._notify_oob`): kind (`"load"` / `"store"`), address,
current pc, current instruction text, memory size. -/
structure OobEvent where
  kind : String
  addr : Nat
  pc : Nat
  inst_text : String
  mem_size : Nat
  deriving DecidableEq, Repr

/-- One invocation of the trace hook (`trace_callback(pc, text, regs)`). -/
structure TraceEvent where
  pc : Nat
  inst_text : String
  regs : List Nat
  deriving DecidableEq, Repr

/-- Embedding of the `SNXSimulator` instance state.  Register and
memory cells always hold `word`-masked values, so they are `Nat`s in
`[0, 2^16)`.  The optional `input_fn` hook is modelled by `input_value`
(the hook's next reply; the hookless default is 0), and the `output_fn`
/ `oob_callback` / `trace_callback` hooks by the output buffer and the
event lists that executions return. -/
structure SimState where
  regs : List Nat
  memory : List Nat
  reg_initialized : List Bool
  mem_initialized : List Bool
  mem_size : Nat
  pc : Nat
  running : Bool
  output_buffer : List Nat
  labels : List (String × Nat)
  instructions : List InstructionIR
  current_pc : Nat
  current_inst_text : String
  input_value : Int
  deriving Repr

/-- Register read `self.regs[index]`; the analyzer's S005 check keeps
every executed index inside the register file, so the out-of-range
`IndexError` branch is unreachable and modelled as 0. -/
def SimState.getReg (st : SimState) (index : Nat) : Nat :=
  st.regs.getD index 0

/-- Embedding of `SNXSimulator._set_reg`: store the word-masked value
and set the register's initialization flag. -/
def SimState.setReg (st : SimState) (index : Nat) (value : Int) : SimState :=
  { st with
    regs := st.regs.set index (word value)
    reg_initialized := st.reg_initialized.set index true }

/-- Embedding of `SNXSimulator._calc_effective_addr`: a base index of
0 contributes 0 (the register-0 address-base quirk), any other base
contributes the register's current value; then add the sign-extended
8-bit offset and mask to 16 bits. -/
def SimState.calc_effective_addr (st : SimState) (offset : Int) (base : Nat) : Nat :=
  let base_val : Int := if base = 0 then 0 else (st.getReg base : Int)
  let eff_offset := normalize_imm8 offset
  word (base_val + eff_offset)

def SimState.mkOob (st : SimState) (kind : String) (addr : Nat) : OobEvent :=
  ⟨kind, addr, st.current_pc, st.current_inst_text, st.mem_size⟩

/-- Embedding of `SNXSimulator._set_mem`: in-bounds stores write the
word-masked value and set the cell's initialization flag; out-of-bounds
stores are dropped and reported through the OOB hook. -/
def SimState.setMem (st : SimState) (addr : Nat) (value : Int) : SimState × List OobEvent :=
  if 0 ≤ addr ∧ addr < st.mem_size then
    ({ st with
        memory := st.memory.set addr (word value)
        mem_initialized := st.mem_initialized.set addr true }, [])
  else
    (st, [st.mkOob ("store") addr])

/-- Embedding of `SNXSimulator._load_mem`: in-bounds loads return the
cell, out-of-bounds loads report through the OOB hook and return 0. -/
def SimState.loadMem (st : SimState) (addr : Nat) : Nat × List OobEvent :=
  if 0 ≤ addr ∧ addr < st.mem_size then
    (st.memory.getD addr 0, [])
  else
    (0, [st.mkOob ("load") addr])

/-- Embedding of `SNXSimulator._read_input`: `word(input_fn())`, with
the hook's reply modelled by `input_value` (0 for the hookless default). -/
def SimState.readInput (st : SimState) : Nat :=
  word st.input_value

/-- Embedding of `SNXSimulator._write_output`: append the word-masked
value to the output buffer (and hand it to the output hook). -/
def SimState.writeOutput (st : SimState) (value : Int) : SimState :=
  { st with output_buffer := st.output_buffer ++ [word value] }

/-- Embedding of `SNXSimulator._execute`: one instruction's effect on
the state, together with the OOB hook invocations it performs.  The
operand patterns mirror the source's `isinstance` guards (an
instruction whose operands do not fit its opcode's shape does
nothing); `self._labels[...]` lookups are backed by the analyzer's
S004 check, so the `KeyError` branch is unreachable and modelled as 0. -/
def SimState.execute (st : SimState) (inst : InstructionIR) : SimState × List OobEvent :=
  match inst.opcode, inst.operands with
  | .LDA, [.register dest, .address offset base] =>
      let addr := st.calc_effective_addr offset base
      (st.setReg dest addr, [])
  | .LD, [.register dest, .address offset base] =>
      let addr := st.calc_effective_addr offset base
      let (value, events) := st.loadMem addr
      (st.setReg dest value, events)
  | .ST, [.register src, .address offset base] =>
      let addr := st.calc_effective_addr offset base
      st.setMem addr (st.getReg src)
  | .ADD, [.register rd, .register rsa, .register rsb] =>
      (st.setReg rd ((st.getReg rsa : Int) + st.getReg rsb), [])
  | .AND, [.register rd, .register rsa, .register rsb] =>
      (st.setReg rd (((st.getReg rsa) &&& (st.getReg rsb) : Nat) : Int), [])
  | .SUB, [.register rd, .register rsa, .register rsb] =>
      (st.setReg rd ((st.getReg rsa : Int) - st.getReg rsb), [])
  | .SLT, [.register rd, .register rsa, .register rsb] =>
      let val_a := signed16 (st.getReg rsa)
      let val_b := signed16 (st.getReg rsb)
      (st.setReg rd (if val_a < val_b then 1 else 0), [])
  | .NOT, [.register rd, .register rs] =>
      -- Python `~x` on an int is `-x - 1`; `word` masks it to 16 bits.
      (st.setReg rd (-(st.getReg rs : Int) - 1), [])
  | .SR, [.register rd, .register rs] =>
      (st.setReg rd (((st.getReg rs) >>> 1 : Nat) : Int), [])
  | .IN, [.register dest] =>
      (st.setReg dest (st.readInput : Int), [])
  | .OUT, [.register src] =>
      (st.writeOutput (st.getReg src), [])
  | .BZ, [.register cond, .labelRef name] =>
      if st.getReg cond = 0 then
        ({ st with pc := (st.labels.lookup name).getD 0 }, [])
      else (st, [])
  | .BAL, [.register link, target_op] =>
      let next_pc := st.pc
      let target_pc :=
        match target_op with
        | .labelRef name => (st.labels.lookup name).getD 0
        | .address offset base => st.calc_effective_addr offset base
        | .register _ => st.pc
      let st := st.setReg link (next_pc : Int)
      ({ st with pc := target_pc }, [])
  | .HLT, _ => ({ st with running := false }, [])
  | _, _ => (st, [])

/-- Embedding of `SNXSimulator.step`: when the simulator is halted or
the pc has run past the instruction stream, clear `running` and return
`False` without touching anything else; otherwise fetch, advance the
pc, execute, fire the trace hook, and return the running flag. -/
def SimState.step (st : SimState) : SimState × Bool × List OobEvent × List TraceEvent :=
  if h : st.running = true ∧ st.pc < st.instructions.length then
    let inst := st.instructions.get ⟨st.pc, h.2⟩
    let current_pc := st.pc
    let st := { st with pc := st.pc + 1, current_pc := current_pc,
                        current_inst_text := inst.text }
    let (st, events) := st.execute inst
    (st, st.running, events, [⟨current_pc, inst.text, st.regs⟩])
  else
    ({ st with running := false }, false, [], [])

/-! ### Concrete inputs used by the verification -/

/-- Concrete program exhibiting the entry-pc defect: the label table
that the analyzer builds for a source defining labels `foo` and `main`
(in any case) is uppercased, here `FOO ↦ 0, MAIN ↦ 1`. -/
def c3Ir : IRProgram :=
  ⟨[⟨.HLT, [], "HLT", 0⟩, ⟨.HLT, [], "HLT", 1⟩], [(("FOO"), 0), (("MAIN"), 1)]⟩

/-- Concrete halted state used to witness C10. -/
def c10St : SimState :=
  { regs := [7, 3, 0, 0], memory := [1, 2], reg_initialized := [true, false, false, false],
    mem_initialized := [false, false], mem_size := 2, pc := 0, running := false,
    output_buffer := [9], labels := [], instructions := [⟨.HLT, [], "HLT", 0⟩],
    current_pc := 0, current_inst_text := "", input_value := 0 }

/-- Concrete state used to witness C8 and C9. -/
def c89St : SimState :=
  { regs := [5, 40, 0, 0], memory := [11, 22, 33], reg_initialized := [true, true, false, false],
    mem_initialized := [true, true, true], mem_size := 3, pc := 1, running := true,
    output_buffer := [], labels := [], instructions := [], current_pc := 0,
    current_inst_text := "", input_value := 0 }

def c6Span1 : SourceSpan := ⟨1, 1, 1, 2⟩

def c6Span2 : SourceSpan := ⟨1, 5, 1, 6⟩

/-- A collector run in which the first error-severity diagnostic on
line 1 is reported through plain `add_error` (as the tokenizer and the
analyzer do) and the second through `add_line_error`. -/
def c6Ops : List CollectorOp :=
  [.add ("L001") ("invalid character") .ERROR c6Span1 [],
   .addLineError 1 ("P003") ("unexpected token") c6Span2]

/-- A collector run with two `add_line_error` reports on line 2. -/
def c6WOps : List CollectorOp :=
  [.addLineError 2 ("P003") ("unexpected token") c6Span1,
   .addLineError 2 ("P005") ("invalid offset") c6Span2]

def c6HeadDiag : Diagnostic := ⟨"P003", "unexpected token", .ERROR, c6Span1, []⟩

def c6SecondDiag : Diagnostic :=
  ⟨"P005", "invalid offset", .ERROR, c6Span2,
   [⟨"이 오류는 같은 줄의 이전 오류(P003)의 영향일 수 있습니다.", c6Span1⟩]⟩

/-- A one-instruction CFG whose single pc loops on itself: `BZ $0, L`
with label L at pc 0 and no HLT anywhere. -/
def c7Block : BasicBlock :=
  { start_pc := 0, end_pc := 0,
    instructions := [⟨.BZ, [.register 0, .labelRef ("L")], "BZ $0, L", 0⟩],
    successors := [(0 : Int)], predecessors := [0], is_entry := true, is_exit := false,
    labels := ["L"] }

def c7Cfg : CFG :=
  { blocks := [(0, c7Block)],
    edges := [⟨0, 0, .BRANCH_TAKEN⟩],
    entry_pc := 0, exit_pcs := [], labels := [("L", 0)],
    reverse_labels := [(0, ["L"])] }

def c7P2l : List (Nat × Nat) := [(0, 2)]

def c7Spans : List (Nat × SourceSpan) := [(2, ⟨2, 5, 2, 13⟩)]

/-! ## Shared auxiliary lemmas -/

theorem word_lt (x : Int) : word x < 65536 := by
  unfold word
  have h1 : x % 65536 < 65536 := Int.emod_lt_of_pos x (by norm_num)
  omega

theorem word_coe_nat (n : Nat) (h : n < 65536) : word (n : Int) = n := by
  unfold word
  rw [Int.emod_eq_of_lt (by positivity) (by exact_mod_cast h)]
  simp

theorem normalize_imm8_eq_signed8 (x : Int) : normalize_imm8 x = signed8 x := by
  unfold normalize_imm8 signed8
  rw [Int.emod_emod_of_dvd x (dvd_refl 256)]

theorem getD_set_self {α : Type} [Inhabited α] (l : List α) (n : Nat) (a d : α)
    (h : n < l.length) : (l.set n a).getD n d = a := by
  induction l generalizing n with
  | nil => simp at h
  | cons x xs ih =>
      cases n with
      | zero => simp [List.set]
      | succ m =>
          simp only [List.set, List.getD, List.get?]
          exact ih m (by simpa using h)

theorem getD_eq_get {α : Type} (l : List α) (n : Nat) (d : α) (h : n < l.length) :
    l.getD n d = l.get ⟨n, h⟩ := by
  simp [List.getD, List.getElem?_eq_getElem h]

/-! ## Verified properties of the claims -/

/-- Claim C1: the spec says every mnemonic in the closed set {ADD, AND,
SUB, SLT, NOT, SR, LDA, LD, ST, IN, OUT, BZ, BAL, HLT}, in any letter
case, resolves through `Opcode.from_str` (so none of them can produce
an S001 unknown-opcode diagnostic).  The code refutes this: the
`Opcode` enum body in `ast.py` declares no `SUB`, `IN` or `OUT`
member, so `from_str` returns `None` for exactly those three mnemonics
(and the parser then emits S001 for them), while the other eleven
mnemonics resolve case-insensitively as specified.  The omission
contradicts the rest of the code base, which references `Opcode.SUB`,
`Opcode.IN` and `Opcode.OUT` directly (`encoding.OPCODE_TO_INT` does so
at import time). -/
theorem c1_from_str_omits_sub_in_out :
    Opcode.from_str ("SUB") = none ∧ Opcode.from_str ("sub") = none ∧
    Opcode.from_str ("IN") = none ∧ Opcode.from_str ("in") = none ∧
    Opcode.from_str ("OUT") = none ∧ Opcode.from_str ("out") = none ∧
    Opcode.from_str ("ADD") = some .ADD ∧ Opcode.from_str ("add") = some .ADD ∧
    Opcode.from_str ("And") = some .AND ∧ Opcode.from_str ("SLT") = some .SLT ∧
    Opcode.from_str ("not") = some .NOT ∧ Opcode.from_str ("sr") = some .SR ∧
    Opcode.from_str ("Lda") = some .LDA ∧ Opcode.from_str ("ld") = some .LD ∧
    Opcode.from_str ("st") = some .ST ∧ Opcode.from_str ("bz") = some .BZ ∧
    Opcode.from_str ("bal") = some .BAL ∧ Opcode.from_str ("hlt") = some .HLT := by
  decide

/-- Claim C2: encoding BZ or BAL-to-label computes
`word((OP<<12) + (RA<<10) + labelPC)` with arithmetic addition, so a
label PC above 0x3FF carries into the register and opcode fields;
concretely, `BAL $1, L` (OP = 0xF, RA = 1) encodes to exactly 0xF7FF
when L resolves to pc 0x3FF and to exactly 0xF800 when L resolves to
pc 0x400. -/
theorem c2_branch_encoding_uses_addition (ra pc lpc : Nat) (name text : String)
    (labels : List (String × Nat)) (hlook : labels.lookup name = some lpc) :
    (encode_instruction ⟨.BZ, [.register ra, .labelRef name], text, pc⟩ labels
        = some (word ((0xE <<< 12) + (ra <<< 10) + lpc))) ∧
    (encode_instruction ⟨.BAL, [.register ra, .labelRef name], text, pc⟩ labels
        = some (word ((0xF <<< 12) + (ra <<< 10) + lpc))) ∧
    encode_instruction ⟨.BAL, [.register 1, .labelRef ("L")], "BAL $1, L", 0⟩
        [(("L"), 0x3FF)] = some 0xF7FF ∧
    encode_instruction ⟨.BAL, [.register 1, .labelRef ("L")], "BAL $1, L", 0⟩
        [(("L"), 0x400)] = some 0xF800 := by
  refine ⟨?_, ?_, by rfl, by rfl⟩ <;>
    simp [encode_instruction, dictGetD, hlook, OPCODE_TO_INT]

/-- Witness for C2 at a concrete instruction and label table. -/
theorem c2_branch_encoding_uses_addition_witness :
    encode_instruction ⟨.BZ, [.register 2, .labelRef ("X")], "BZ $2, X", 0⟩
        [(("X"), 5)] = some (word ((0xE <<< 12) + (2 <<< 10) + 5)) :=
  (c2_branch_encoding_uses_addition 2 0 5 ("X") ("BZ $2, X") [(("X"), 5)] rfl).1

/-- Claim C3: the CFG's entry_pc should equal the pc of the label MAIN
whenever one is defined (labels are normalized by uppercasing), else 0.
The code refutes this: `build_cfg` computes
`entry_pc = labels.get("main", 0)` with a lowercase key, while every
key in the label table is uppercased by the tokenizer, so the lookup
never hits and entry_pc is always 0.  Here the label MAIN is defined
with pc 1, yet entry_pc is 0. -/
theorem c3_entry_pc_ignores_main :
    c3Ir.labels.lookup ("MAIN") = some 1 ∧ (build_cfg c3Ir).entry_pc = 0 := by
  constructor <;> rfl

/-- Claim C10: for every simulator state in which `running` is false or
the pc is at or past the number of instructions, `step()` clears the
running flag and returns `False` while executing nothing: registers,
memory, both initialization-flag arrays, the pc and the output buffer
are untouched, and neither the OOB hook nor the trace hook is invoked.
In the embedding the instruction fetch is guarded by exactly this test,
so no indexing by pc can go out of bounds. -/
theorem c10_step_guard (st : SimState)
    (h : st.running = false ∨ st.instructions.length ≤ st.pc) :
    st.step = ({ st with running := false }, false, [], []) := by
  unfold SimState.step
  rw [dif_neg]
  rintro ⟨hr, hpc⟩
  rcases h with h | h
  · rw [h] at hr; cases hr
  · omega

/-- Witness for C10 at a concrete halted state. -/
theorem c10_step_guard_witness :
    c10St.step = ({ c10St with running := false }, false, [], []) :=
  c10_step_guard c10St (Or.inl rfl)

theorem lor_pow_eq_add : ∀ (k a x : Nat), a % 2 ^ k = 0 → x < 2 ^ k → a ||| x = a + x := by
  intro k
  induction k with
  | zero =>
      intro a x ha hx
      have hx0 : x = 0 := by omega
      subst hx0
      simp
  | succ k ih =>
      intro a x ha hx
      have hdvd : 2 ^ (k + 1) ∣ a := Nat.dvd_of_mod_eq_zero ha
      have h2 : a % 2 = 0 := by
        have h21 : (2 : Nat) ∣ a := dvd_trans (dvd_pow_self 2 (Nat.succ_ne_zero k)) hdvd
        omega
      have ha2 : (a / 2) % 2 ^ k = 0 := by
        obtain ⟨t, rfl⟩ := hdvd
        have hh : 2 ^ (k + 1) * t / 2 = 2 ^ k * t := by
          rw [pow_succ, Nat.mul_right_comm]
          exact Nat.mul_div_cancel _ (by norm_num)
        rw [hh]
        exact Nat.mul_mod_right _ _
      have hx2 : x / 2 < 2 ^ k := by
        have hp : 2 ^ (k + 1) = 2 ^ k * 2 := pow_succ 2 k
        omega
      have key := ih (a / 2) (x / 2) ha2 hx2
      have hdiv : (a ||| x) / 2 = a / 2 ||| x / 2 := Nat.or_div_two
      have hmod : (a ||| x) % 2 = x % 2 := by
        rcases Nat.mod_two_eq_zero_or_one x with h | h
        · rcases Nat.mod_two_eq_zero_or_one (a ||| x) with h2' | h2'
          · omega
          · exfalso
            rcases Nat.or_mod_two_eq_one.1 h2' with hh | hh <;> omega
        · rw [h]
          exact Nat.or_mod_two_eq_one.2 (Or.inr h)
      omega

theorem and3_eq (x : Nat) : x &&& 0x3 = x % 4 := by
  have h := Nat.and_pow_two_sub_one_eq_mod x 2
  norm_num at h
  exact h

theorem and15_eq (x : Nat) : x &&& 0xF = x % 16 := by
  have h := Nat.and_pow_two_sub_one_eq_mod x 4
  norm_num at h
  exact h

theorem and255_eq (x : Nat) : x &&& 0xFF = x % 256 := by
  have h := Nat.and_pow_two_sub_one_eq_mod x 8
  norm_num at h
  exact h

theorem and1023_eq (x : Nat) : x &&& 0x3FF = x % 1024 := by
  have h := Nat.and_pow_two_sub_one_eq_mod x 10
  norm_num at h
  exact h

theorem and65535_eq (x : Nat) : x &&& 0xFFFF = x % 65536 := by
  have h := Nat.and_pow_two_sub_one_eq_mod x 16
  norm_num at h
  exact h

theorem lor_add_4096 (a x : Nat) (ha : a % 4096 = 0) (hx : x < 4096) : a ||| x = a + x :=
  lor_pow_eq_add 12 a x (by norm_num [ha]) (by norm_num [hx])

theorem lor_add_1024 (a x : Nat) (ha : a % 1024 = 0) (hx : x < 1024) : a ||| x = a + x :=
  lor_pow_eq_add 10 a x (by norm_num [ha]) (by norm_num [hx])

theorem lor_add_256 (a x : Nat) (ha : a % 256 = 0) (hx : x < 256) : a ||| x = a + x :=
  lor_pow_eq_add 8 a x (by norm_num [ha]) (by norm_num [hx])

theorem fields_R (opv s1 s2 d : Nat) (h1 : s1 < 4) (h2 : s2 < 4) (hd : d < 4) :
    (opv <<< 12) ||| (s1 <<< 10) ||| (s2 <<< 8) ||| (d <<< 6)
      = opv * 4096 + s1 * 1024 + s2 * 256 + d * 64 := by
  rw [Nat.shiftLeft_eq, Nat.shiftLeft_eq, Nat.shiftLeft_eq, Nat.shiftLeft_eq]
  norm_num
  rw [lor_add_4096 (opv * 4096) (s1 * 1024) (Nat.mul_mod_left opv 4096) (by omega),
      lor_add_1024 (opv * 4096 + s1 * 1024) (s2 * 256) (by omega) (by omega),
      lor_add_256 (opv * 4096 + s1 * 1024 + s2 * 256) (d * 64) (by omega) (by omega)]

theorem fields_R1 (opv s d : Nat) (hs : s < 4) (hd : d < 4) :
    (opv <<< 12) ||| (s <<< 10) ||| (d <<< 6) = opv * 4096 + s * 1024 + d * 64 := by
  rw [Nat.shiftLeft_eq, Nat.shiftLeft_eq, Nat.shiftLeft_eq]
  norm_num
  rw [lor_add_4096 (opv * 4096) (s * 1024) (Nat.mul_mod_left opv 4096) (by omega),
      lor_add_256 (opv * 4096 + s * 1024) (d * 64) (by omega) (by omega)]

theorem fields_I (opv x y m : Nat) (hx : x < 4) (hy : y < 4) (hm : m < 256) :
    (opv <<< 12) ||| (x <<< 10) ||| (y <<< 8) ||| m
      = opv * 4096 + x * 1024 + y * 256 + m := by
  rw [Nat.shiftLeft_eq, Nat.shiftLeft_eq, Nat.shiftLeft_eq]
  norm_num
  rw [lor_add_4096 (opv * 4096) (x * 1024) (Nat.mul_mod_left opv 4096) (by omega),
      lor_add_1024 (opv * 4096 + x * 1024) (y * 256) (by omega) (by omega),
      lor_add_256 (opv * 4096 + x * 1024 + y * 256) m (by omega) hm]

theorem fields_2 (opv x : Nat) (hx : x < 4) :
    (opv <<< 12) ||| (x <<< 10) = opv * 4096 + x * 1024 := by
  rw [Nat.shiftLeft_eq, Nat.shiftLeft_eq]
  norm_num
  rw [lor_add_4096 (opv * 4096) (x * 1024) (Nat.mul_mod_left opv 4096) (by omega)]

theorem decode_R_sum (op : Opcode) (opv d s1 s2 : Nat) (hv : opv < 16)
    (hio : INT_TO_OPCODE opv = some op)
    (harm : op = .ADD ∨ op = .AND ∨ op = .SUB ∨ op = .SLT)
    (hd : d < 4) (h1 : s1 < 4) (h2 : s2 < 4) :
    decode_word (opv * 4096 + s1 * 1024 + s2 * 256 + d * 64) = .rType op d s1 s2 := by
  have hW : (opv * 4096 + s1 * 1024 + s2 * 256 + d * 64) % 65536
      = opv * 4096 + s1 * 1024 + s2 * 256 + d * 64 := by omega
  have hop : (((opv * 4096 + s1 * 1024 + s2 * 256 + d * 64) >>> 12) &&& 0xF) = opv := by
    rw [Nat.shiftRight_eq_div_pow, and15_eq]
    omega
  have e10 : (((opv * 4096 + s1 * 1024 + s2 * 256 + d * 64) >>> 10) &&& 0x3) = s1 := by
    rw [Nat.shiftRight_eq_div_pow, and3_eq]
    omega
  have e8 : (((opv * 4096 + s1 * 1024 + s2 * 256 + d * 64) >>> 8) &&& 0x3) = s2 := by
    rw [Nat.shiftRight_eq_div_pow, and3_eq]
    omega
  have e6 : (((opv * 4096 + s1 * 1024 + s2 * 256 + d * 64) >>> 6) &&& 0x3) = d := by
    rw [Nat.shiftRight_eq_div_pow, and3_eq]
    omega
  simp only [decode_word, and65535_eq, hW, hop, hio]
  rcases harm with rfl | rfl | rfl | rfl <;> simp only [e10, e8, e6]

theorem decode_R1_sum (op : Opcode) (opv d s : Nat) (hv : opv < 16)
    (hio : INT_TO_OPCODE opv = some op) (harm : op = .NOT ∨ op = .SR)
    (hd : d < 4) (hs : s < 4) :
    decode_word (opv * 4096 + s * 1024 + d * 64) = .r1Type op d s := by
  have hW : (opv * 4096 + s * 1024 + d * 64) % 65536 = opv * 4096 + s * 1024 + d * 64 := by
    omega
  have hop : (((opv * 4096 + s * 1024 + d * 64) >>> 12) &&& 0xF) = opv := by
    rw [Nat.shiftRight_eq_div_pow, and15_eq]
    omega
  have e10 : (((opv * 4096 + s * 1024 + d * 64) >>> 10) &&& 0x3) = s := by
    rw [Nat.shiftRight_eq_div_pow, and3_eq]
    omega
  have e6 : (((opv * 4096 + s * 1024 + d * 64) >>> 6) &&& 0x3) = d := by
    rw [Nat.shiftRight_eq_div_pow, and3_eq]
    omega
  simp only [decode_word, and65535_eq, hW, hop, hio]
  rcases harm with rfl | rfl <;> simp only [e10, e6]

theorem decode_I_sum (op : Opcode) (opv d b m : Nat) (hv : opv < 16)
    (hio : INT_TO_OPCODE opv = some op) (harm : op = .LD ∨ op = .ST ∨ op = .LDA)
    (hd : d < 4) (hb : b < 4) (hm : m < 256) :
    decode_word (opv * 4096 + d * 1024 + b * 256 + m) = .iType op d b m := by
  have hW : (opv * 4096 + d * 1024 + b * 256 + m) % 65536
      = opv * 4096 + d * 1024 + b * 256 + m := by omega
  have hop : (((opv * 4096 + d * 1024 + b * 256 + m) >>> 12) &&& 0xF) = opv := by
    rw [Nat.shiftRight_eq_div_pow, and15_eq]
    omega
  have e10 : (((opv * 4096 + d * 1024 + b * 256 + m) >>> 10) &&& 0x3) = d := by
    rw [Nat.shiftRight_eq_div_pow, and3_eq]
    omega
  have e8 : (((opv * 4096 + d * 1024 + b * 256 + m) >>> 8) &&& 0x3) = b := by
    rw [Nat.shiftRight_eq_div_pow, and3_eq]
    omega
  have eimm : ((opv * 4096 + d * 1024 + b * 256 + m) &&& 0xFF) = m := by
    rw [and255_eq]
    omega
  simp only [decode_word, and65535_eq, hW, hop, hio]
  rcases harm with rfl | rfl | rfl <;> simp only [e10, e8, eimm]

theorem decode_IN_sum (d : Nat) (hd : d < 4) :
    decode_word (12 * 4096 + d * 1024) = .inType .IN d := by
  have hW : (12 * 4096 + d * 1024) % 65536 = 12 * 4096 + d * 1024 := by omega
  have hop : (((12 * 4096 + d * 1024) >>> 12) &&& 0xF) = 12 := by
    rw [Nat.shiftRight_eq_div_pow, and15_eq]
    omega
  have e10 : (((12 * 4096 + d * 1024) >>> 10) &&& 0x3) = d := by
    rw [Nat.shiftRight_eq_div_pow, and3_eq]
    omega
  simp only [decode_word, and65535_eq, hW, hop, INT_TO_OPCODE, e10]

theorem decode_OUT_sum (s : Nat) (hs : s < 4) :
    decode_word (13 * 4096 + s * 1024) = .outType .OUT s := by
  have hW : (13 * 4096 + s * 1024) % 65536 = 13 * 4096 + s * 1024 := by omega
  have hop : (((13 * 4096 + s * 1024) >>> 12) &&& 0xF) = 13 := by
    rw [Nat.shiftRight_eq_div_pow, and15_eq]
    omega
  have e10 : (((13 * 4096 + s * 1024) >>> 10) &&& 0x3) = s := by
    rw [Nat.shiftRight_eq_div_pow, and3_eq]
    omega
  simp only [decode_word, and65535_eq, hW, hop, INT_TO_OPCODE, e10]

theorem decode_BAL_sum (l b m : Nat) (hl : l < 4) (hb : b < 4) (hm : m < 256) :
    decode_word (15 * 4096 + l * 1024 + b * 256 + m) = .balType .BAL l b m (b * 256 + m) := by
  have hW : (15 * 4096 + l * 1024 + b * 256 + m) % 65536
      = 15 * 4096 + l * 1024 + b * 256 + m := by omega
  have hop : (((15 * 4096 + l * 1024 + b * 256 + m) >>> 12) &&& 0xF) = 15 := by
    rw [Nat.shiftRight_eq_div_pow, and15_eq]
    omega
  have e10 : (((15 * 4096 + l * 1024 + b * 256 + m) >>> 10) &&& 0x3) = l := by
    rw [Nat.shiftRight_eq_div_pow, and3_eq]
    omega
  have e8 : (((15 * 4096 + l * 1024 + b * 256 + m) >>> 8) &&& 0x3) = b := by
    rw [Nat.shiftRight_eq_div_pow, and3_eq]
    omega
  have eimm : ((15 * 4096 + l * 1024 + b * 256 + m) &&& 0xFF) = m := by
    rw [and255_eq]
    omega
  have etgt : ((15 * 4096 + l * 1024 + b * 256 + m) &&& 0x3FF) = b * 256 + m := by
    rw [and1023_eq]
    omega
  simp only [decode_word, and65535_eq, hW, hop, INT_TO_OPCODE, e10, e8, eimm, etgt]

theorem rt_R (text : String) (pc : Nat) (labels : List (String × Nat)) (op : Opcode)
    (hmem : op = .ADD ∨ op = .AND ∨ op = .SUB ∨ op = .SLT)
    (d s1 s2 : Nat) (hd : d < 4) (h1 : s1 < 4) (h2 : s2 < 4) :
    (encode_instruction ⟨op, [.register d, .register s1, .register s2], text, pc⟩ labels).map
        decode_word
      = some (structural_view ⟨op, [.register d, .register s1, .register s2], text, pc⟩) := by
  rcases hmem with rfl | rfl | rfl | rfl <;>
    (show some (decode_word
          ((OPCODE_TO_INT _ <<< 12) ||| (s1 <<< 10) ||| (s2 <<< 8) ||| (d <<< 6)))
        = some (Decoded.rType _ d s1 s2)
     simp only [OPCODE_TO_INT]
     rw [fields_R _ s1 s2 d h1 h2 hd]
     exact congrArg some (decode_R_sum _ _ d s1 s2 (by norm_num) rfl
       (by simp) hd h1 h2))

theorem rt_R1 (text : String) (pc : Nat) (labels : List (String × Nat)) (op : Opcode)
    (hmem : op = .NOT ∨ op = .SR) (d s : Nat) (hd : d < 4) (hs : s < 4) :
    (encode_instruction ⟨op, [.register d, .register s], text, pc⟩ labels).map decode_word
      = some (structural_view ⟨op, [.register d, .register s], text, pc⟩) := by
  rcases hmem with rfl | rfl <;>
    (show some (decode_word ((OPCODE_TO_INT _ <<< 12) ||| (s <<< 10) ||| (d <<< 6)))
        = some (Decoded.r1Type _ d s)
     simp only [OPCODE_TO_INT]
     rw [fields_R1 _ s d hs hd]
     exact congrArg some (decode_R1_sum _ _ d s (by norm_num) rfl (by simp) hd hs))

theorem rt_HLT (text : String) (pc : Nat) (labels : List (String × Nat)) :
    (encode_instruction ⟨.HLT, [], text, pc⟩ labels).map decode_word
      = some (structural_view ⟨.HLT, [], text, pc⟩) := by
  show some (decode_word ((OPCODE_TO_INT .HLT) <<< 12)) = some (Decoded.r0Type .HLT)
  decide

theorem rt_I (text : String) (pc : Nat) (labels : List (String × Nat)) (op : Opcode)
    (hmem : op = .LD ∨ op = .ST ∨ op = .LDA) (d : Nat) (off : Int) (b : Nat)
    (hd : d < 4) (hb : b < 4) (hnn : 0 ≤ off) (hlt : off < 256) :
    (encode_instruction ⟨op, [.register d, .address off b], text, pc⟩ labels).map decode_word
      = some (structural_view ⟨op, [.register d, .address off b], text, pc⟩) := by
  have hmod : off % 256 = off := Int.emod_eq_of_lt hnn hlt
  have hm : off.toNat < 256 := by omega
  rcases hmem with rfl | rfl | rfl <;>
    (show some (decode_word
          ((OPCODE_TO_INT _ <<< 12) ||| (d <<< 10) ||| (b <<< 8) ||| (off % 256).toNat))
        = some (Decoded.iType _ d b off.toNat)
     rw [hmod]
     simp only [OPCODE_TO_INT]
     rw [fields_I _ d b off.toNat hd hb hm]
     exact congrArg some (decode_I_sum _ _ d b off.toNat (by norm_num) rfl
       (by simp) hd hb hm))

theorem rt_IN (text : String) (pc : Nat) (labels : List (String × Nat)) (d : Nat)
    (hd : d < 4) :
    (encode_instruction ⟨.IN, [.register d], text, pc⟩ labels).map decode_word
      = some (structural_view ⟨.IN, [.register d], text, pc⟩) := by
  show some (decode_word ((OPCODE_TO_INT .IN <<< 12) ||| (d <<< 10)))
      = some (Decoded.inType .IN d)
  simp only [OPCODE_TO_INT]
  rw [fields_2 _ d hd]
  exact congrArg some (decode_IN_sum d hd)

theorem rt_OUT (text : String) (pc : Nat) (labels : List (String × Nat)) (s : Nat)
    (hs : s < 4) :
    (encode_instruction ⟨.OUT, [.register s], text, pc⟩ labels).map decode_word
      = some (structural_view ⟨.OUT, [.register s], text, pc⟩) := by
  show some (decode_word ((OPCODE_TO_INT .OUT <<< 12) ||| (s <<< 10)))
      = some (Decoded.outType .OUT s)
  simp only [OPCODE_TO_INT]
  rw [fields_2 _ s hs]
  exact congrArg some (decode_OUT_sum s hs)

theorem rt_BAL_addr (text : String) (pc : Nat) (labels : List (String × Nat))
    (l : Nat) (off : Int) (b : Nat)
    (hl : l < 4) (hb : b < 4) (hnn : 0 ≤ off) (hlt : off < 256) :
    (encode_instruction ⟨.BAL, [.register l, .address off b], text, pc⟩ labels).map
        decode_word
      = some (structural_view ⟨.BAL, [.register l, .address off b], text, pc⟩) := by
  have hmod : off % 256 = off := Int.emod_eq_of_lt hnn hlt
  have hm : off.toNat < 256 := by omega
  show some (decode_word
        ((OPCODE_TO_INT .BAL <<< 12) ||| (l <<< 10) ||| (b <<< 8) ||| (off % 256).toNat))
      = some (Decoded.balType .BAL l b off.toNat ((b <<< 8) ||| off.toNat))
  rw [hmod]
  have htgt : (b <<< 8) ||| off.toNat = b * 256 + off.toNat := by
    rw [Nat.shiftLeft_eq]
    norm_num
    exact lor_add_256 _ _ (Nat.mul_mod_left b 256) hm
  rw [htgt]
  simp only [OPCODE_TO_INT]
  rw [fields_I _ l b off.toNat hl hb hm]
  exact congrArg some (decode_BAL_sum l b off.toNat hl hb hm)

set_option maxHeartbeats 4000000 in
/-- Claim C4: for every instruction whose opcode is not BZ and not BAL
with a label operand, whose register and base indices lie in `[0, 4)`
and whose 8-bit offset field is in range, decoding the encoded word
returns the structural view of the instruction: the same opcode and
the same register / base / immediate field values as the instruction's
operands. -/
theorem c4_decode_encode_roundtrip (inst : InstructionIR) (labels : List (String × Nat))
    (h : in_range_shape inst) :
    (encode_instruction inst labels).map decode_word = some (structural_view inst) := by
  obtain ⟨op, ops, text, pc⟩ := inst
  cases op <;>
    rcases ops with _ | ⟨a, _ | ⟨b, _ | ⟨c, _ | ⟨d4, rest⟩⟩⟩⟩ <;>
    (try rcases a with d1 | ⟨o1, b1⟩ | n1) <;>
    (try rcases b with d2 | ⟨o2, b2⟩ | n2) <;>
    (try rcases c with d3 | ⟨o3, b3⟩ | n3) <;>
    first
    | exact False.elim h
    | exact rt_HLT text pc labels
    | exact rt_R text pc labels _
        (by first
            | exact Or.inl rfl
            | exact Or.inr (Or.inl rfl)
            | exact Or.inr (Or.inr (Or.inl rfl))
            | exact Or.inr (Or.inr (Or.inr rfl)))
        d1 d2 d3 h.1 h.2.1 h.2.2
    | exact rt_R1 text pc labels _
        (by first | exact Or.inl rfl | exact Or.inr rfl)
        d1 d2 h.1 h.2
    | exact rt_I text pc labels _
        (by first
            | exact Or.inl rfl
            | exact Or.inr (Or.inl rfl)
            | exact Or.inr (Or.inr rfl))
        d1 o2 b2 h.1 h.2.1 h.2.2.1 h.2.2.2
    | exact rt_IN text pc labels d1 h
    | exact rt_OUT text pc labels d1 h
    | exact rt_BAL_addr text pc labels d1 o2 b2 h.1 h.2.1 h.2.2.1 h.2.2.2

/-- Witness for C4 at a concrete LD instruction. -/
theorem c4_decode_encode_roundtrip_witness :
    (encode_instruction ⟨.LD, [.register 1, .address 64 3], "LD $1, 64($3)", 0⟩ []).map
        decode_word
      = some (structural_view ⟨.LD, [.register 1, .address 64 3], "LD $1, 64($3)", 0⟩) :=
  c4_decode_encode_roundtrip ⟨.LD, [.register 1, .address 64 3], "LD $1, 64($3)", 0⟩ []
    ⟨by decide, by decide, by decide, by decide⟩

theorem lookup_append_some {α : Type} (l1 l2 : List (Nat × α)) (k : Nat) (v : α)
    (h : l1.lookup k = some v) : (l1 ++ l2).lookup k = some v := by
  induction l1 with
  | nil => simp [List.lookup] at h
  | cons p rest ih =>
      simp only [List.cons_append, List.lookup] at h ⊢
      by_cases hk : k = p.1
      · simp [hk, beq_iff_eq] at h ⊢
        simpa [hk] using h
      · have hbeq : (k == p.1) = false := by simp [hk]
        rw [hbeq] at h ⊢
        exact ih h

theorem lookup_append_none {α : Type} (l1 l2 : List (Nat × α)) (k : Nat)
    (h : l1.lookup k = none) : (l1 ++ l2).lookup k = l2.lookup k := by
  induction l1 with
  | nil => simp
  | cons p rest ih =>
      simp only [List.cons_append, List.lookup] at h ⊢
      by_cases hk : k = p.1
      · simp [hk, beq_iff_eq] at h
      · have hbeq : (k == p.1) = false := by simp [hk]
        rw [hbeq] at h ⊢
        exact ih h

theorem lineErrorEmits_cons (e : Option Nat × Diagnostic)
    (es : List (Option Nat × Diagnostic)) (line : Nat) :
    lineErrorEmits (e :: es) line
      = if e.1 = some line then e.2 :: lineErrorEmits es line else lineErrorEmits es line := by
  simp only [lineErrorEmits, List.filterMap]
  split <;> rename_i hsplit <;> split at hsplit <;> simp_all

theorem addLineError_of_primary (st : CollectorState) (line : Nat)
    (code message : String) (span : SourceSpan) (p : Diagnostic)
    (h : st.linePrimary.lookup line = some p) :
    collectorAddLineError st line code message span
      = ({ st with diags := st.diags
            ++ [⟨code, message, .ERROR, span, [⟨cascadeMsg p.code, p.span⟩]⟩] },
         ⟨code, message, .ERROR, span, [⟨cascadeMsg p.code, p.span⟩]⟩) := by
  simp [collectorAddLineError, collectorAddError, collectorAdd, h]

theorem addLineError_of_none (st : CollectorState) (line : Nat)
    (code message : String) (span : SourceSpan)
    (h : st.linePrimary.lookup line = none) :
    collectorAddLineError st line code message span
      = ({ st with
            diags := st.diags ++ [⟨code, message, .ERROR, span, []⟩]
            linePrimary := st.linePrimary ++ [(line, ⟨code, message, .ERROR, span, []⟩)] },
         ⟨code, message, .ERROR, span, []⟩) := by
  simp [collectorAddLineError, collectorAddError, collectorAdd, h]

theorem alGetNat_alSetNat_self (m : List (Nat × Nat)) (k v : Nat) :
    alGetNat (alSetNat m k v) k = v := by
  induction m with
  | nil => simp [alSetNat, alGetNat, List.lookup]
  | cons p rest ih =>
      by_cases hk : p.1 = k
      · simp [alSetNat, hk, alGetNat, List.lookup]
      · have : (k == p.1) = false := by
          simp only [beq_eq_false_iff_ne, ne_eq]
          exact fun hq => hk hq.symm
        simp [alSetNat, hk, alGetNat, List.lookup, this] at ih ⊢
        exact ih

theorem alGetNat_alSetNat_ne (m : List (Nat × Nat)) (k q v : Nat) (h : q ≠ k) :
    alGetNat (alSetNat m k v) q = alGetNat m q := by
  have hb : (q == k) = false := by
    simp only [beq_eq_false_iff_ne, ne_eq]
    exact h
  induction m with
  | nil => simp [alSetNat, alGetNat, List.lookup, hb]
  | cons p rest ih =>
      by_cases hk : p.1 = k
      · subst hk
        simp [alSetNat, alGetNat, List.lookup, hb]
      · by_cases hq : (q == p.1) = true
        · simp [alSetNat, hk, alGetNat, List.lookup, hq]
        · have hqf : (q == p.1) = false := by
            cases hqv : (q == p.1) with
            | true => exact absurd hqv hq
            | false => rfl
          simp only [alSetNat, if_neg hk, alGetNat, List.lookup, hqf] at ih ⊢
          exact ih

/-- The successor-join phase touches only the worklist and the state
map: the pop counter, the visit counters and the transfer counters all
pass through unchanged. -/
theorem joinSuccessors_counters (out : AbstractState) :
    ∀ (succs : List Int) (s : AnalyzeLoopState),
      (joinSuccessors out succs s).popCount = s.popCount ∧
      (joinSuccessors out succs s).visited = s.visited ∧
      (joinSuccessors out succs s).transferCounts = s.transferCounts := by
  intro succs
  induction succs with
  | nil => exact fun s => ⟨rfl, rfl, rfl⟩
  | cons succ rest ih =>
      intro s
      rw [joinSuccessors]
      split
      · exact ih s
      · try dsimp only
        split
        next cur heq =>
          split
          · exact ih _
          · exact ih s
        next heq => exact ih _

/-- The loop body preserves the pop counter and the counter invariant:
every transfer counter stays at most 20 and at most its visit counter. -/
theorem analyzeStep_counters (i : List (Nat × InstructionIR)) (l : List (String × Nat))
    (pc : Nat) (s : AnalyzeLoopState)
    (hinv : ∀ q, alGetNat s.transferCounts q ≤ 20 ∧
        alGetNat s.transferCounts q ≤ alGetNat s.visited q) :
    (analyzeStep i l pc s).popCount = s.popCount ∧
    ∀ q, alGetNat (analyzeStep i l pc s).transferCounts q ≤ 20 ∧
        alGetNat (analyzeStep i l pc s).transferCounts q
          ≤ alGetNat (analyzeStep i l pc s).visited q := by
  unfold analyzeStep
  cases hI : i.lookup pc with
  | none => exact ⟨rfl, hinv⟩
  | some inst =>
      dsimp only
      by_cases hv : alGetNat (alSetNat s.visited pc (alGetNat s.visited pc + 1)) pc > 20
      · rw [if_pos hv]
        refine ⟨rfl, fun q => ⟨(hinv q).1, ?_⟩⟩
        show alGetNat s.transferCounts q
            ≤ alGetNat (alSetNat s.visited pc (alGetNat s.visited pc + 1)) q
        rcases hinv q with ⟨h1, h2⟩
        by_cases hq : q = pc
        · subst hq
          rw [alGetNat_alSetNat_self]
          omega
        · rw [alGetNat_alSetNat_ne _ _ _ _ hq]
          exact h2
      · rw [if_neg hv]
        rw [alGetNat_alSetNat_self] at hv
        try dsimp only
        constructor
        · rw [(joinSuccessors_counters _ _ _).1]
        · intro q
          rw [(joinSuccessors_counters _ _ _).2.2, (joinSuccessors_counters _ _ _).2.1]
          dsimp only
          rcases hinv q with ⟨h1, h2⟩
          rcases hinv pc with ⟨h1p, h2p⟩
          by_cases hq : q = pc
          · subst hq
            rw [alGetNat_alSetNat_self, alGetNat_alSetNat_self]
            omega
          · rw [alGetNat_alSetNat_ne _ _ _ _ hq, alGetNat_alSetNat_ne _ _ _ _ hq]
            exact ⟨h1, h2⟩

/-- The worklist loop pops at most `fuel` times and keeps every
transfer counter at or below 20. -/
theorem analyzeLoop_bounds (i : List (Nat × InstructionIR)) (l : List (String × Nat)) :
    ∀ (fuel : Nat) (s : AnalyzeLoopState),
      (∀ q, alGetNat s.transferCounts q ≤ 20 ∧
          alGetNat s.transferCounts q ≤ alGetNat s.visited q) →
      (analyzeLoop i l fuel s).popCount ≤ s.popCount + fuel ∧
      ∀ q, alGetNat (analyzeLoop i l fuel s).transferCounts q ≤ 20 := by
  intro fuel
  induction fuel with
  | zero =>
      intro s hinv
      rw [analyzeLoop]
      exact ⟨by omega, fun q => (hinv q).1⟩
  | succ fuel ih =>
      intro s hinv
      rw [analyzeLoop]
      cases hW : s.worklist with
      | nil =>
          exact show s.popCount ≤ s.popCount + (fuel + 1) ∧
              (∀ q, alGetNat s.transferCounts q ≤ 20)
            from ⟨by omega, fun q => (hinv q).1⟩
      | cons pc rest =>
          have hstep := analyzeStep_counters i l pc
            { s with worklist := rest, popCount := s.popCount + 1 } hinv
          have hrec := ih (analyzeStep i l pc
            { s with worklist := rest, popCount := s.popCount + 1 }) hstep.2
          have h1 := hrec.1
          rw [hstep.1] at h1
          have h2 : ({ s with worklist := rest, popCount := s.popCount + 1 }
              : AnalyzeLoopState).popCount = s.popCount + 1 := rfl
          rw [h2] at h1
          exact show (analyzeLoop i l fuel (analyzeStep i l pc
              { s with worklist := rest, popCount := s.popCount + 1 })).popCount
                ≤ s.popCount + (fuel + 1) ∧
              ∀ q, alGetNat (analyzeLoop i l fuel (analyzeStep i l pc
                { s with worklist := rest, popCount := s.popCount + 1 })).transferCounts q
                  ≤ 20
            from ⟨by omega, hrec.2⟩

/-- Claim C5: for every IRProgram, CFG and register count,
`DataflowAnalyzer.analyze` terminates and returns a result (in the
embedding it is a total function whose loop fuel is the source's own
`max_iterations` budget): the worklist loop pops at most
`10·|instructions|` times and the transfer function for any single pc
runs at most 20 times. -/
theorem c5_dataflow_analyze_bounded (ir : IRProgram) (cfg : CFG) (reg_count : Nat) :
    (DataflowAnalyzer_analyze ir cfg reg_count).popCount ≤ 10 * ir.instructions.length ∧
    ∀ pc, alGetNat (DataflowAnalyzer_analyze ir cfg reg_count).transferCounts pc ≤ 20 := by
  by_cases hemp : ir.instructions.isEmpty
  · simp only [DataflowAnalyzer_analyze, if_pos hemp]
    exact ⟨Nat.zero_le _, fun pc => by simp [alGetNat, List.lookup]⟩
  · simp only [DataflowAnalyzer_analyze, if_neg hemp]
    try dsimp only
    constructor
    · refine le_trans (analyzeLoop_bounds _ _ _ _ ?_).1 ?_
      · intro q
        simp [alGetNat, List.lookup]
      · try dsimp only
        omega
    · intro pc
      exact (analyzeLoop_bounds _ _ _ _ (fun q => by simp [alGetNat, List.lookup])).2 pc

/-- Once a line has a primary, it keeps it, and every further
`add_line_error` on that line is emitted as an error carrying exactly
one related-info whose span is the primary's span. -/
theorem c6_primary_persists (ops : List CollectorOp) (st : CollectorState) (line : Nat)
    (p : Diagnostic) (h : st.linePrimary.lookup line = some p) :
    (runCollectorOps st ops).1.linePrimary.lookup line = some p ∧
    ∀ d ∈ lineErrorEmits (runCollectorOps st ops).2 line,
      d.severity = .ERROR ∧ d.related.map RelatedInfo.span = [p.span] := by
  induction ops generalizing st with
  | nil => simpa [runCollectorOps, lineErrorEmits] using h
  | cons op ops ih =>
      cases op with
      | add code message severity span related =>
          simp only [runCollectorOps, runCollectorOp, collectorAdd]
          rw [lineErrorEmits_cons]
          simp only [reduceCtorEq, if_false]
          exact ih { st with diags := st.diags ++ [⟨code, message, severity, span, related⟩] } h
      | addLineError line2 code message span =>
          by_cases hl : line2 = line
          · subst hl
            simp only [runCollectorOps, runCollectorOp,
              addLineError_of_primary st line2 code message span p h]
            rw [lineErrorEmits_cons]
            have hstep := ih
              { st with diags := st.diags
                  ++ [⟨code, message, .ERROR, span, [⟨cascadeMsg p.code, p.span⟩]⟩] } h
            refine ⟨hstep.1, ?_⟩
            intro d hd
            simp only [if_pos rfl] at hd
            rcases List.mem_cons.1 hd with rfl | hd
            · exact ⟨rfl, by simp⟩
            · exact hstep.2 d hd
          · rcases hlook : st.linePrimary.lookup line2 with _ | q
            · simp only [runCollectorOps, runCollectorOp,
                addLineError_of_none st line2 code message span hlook]
              rw [lineErrorEmits_cons]
              have htag : ¬ ((some line2 : Option Nat) = some line) := by simp [hl]
              rw [if_neg htag]
              exact ih _ (lookup_append_some _ _ _ _ h)
            · simp only [runCollectorOps, runCollectorOp,
                addLineError_of_primary st line2 code message span q hlook]
              rw [lineErrorEmits_cons]
              have htag : ¬ ((some line2 : Option Nat) = some line) := by simp [hl]
              rw [if_neg htag]
              exact ih _ h

/-- From a state with no primary for a line, either no `add_line_error`
ever targets the line (and it never gains a primary), or the first one
becomes the primary, and flows as in `c6_primary_persists` after it. -/
theorem c6_first_line_error (ops : List CollectorOp) (st : CollectorState) (line : Nat)
    (h : st.linePrimary.lookup line = none) :
    (lineErrorEmits (runCollectorOps st ops).2 line = [] ∧
        (runCollectorOps st ops).1.linePrimary.lookup line = none) ∨
    (∃ d rest, lineErrorEmits (runCollectorOps st ops).2 line = d :: rest ∧
        d.severity = .ERROR ∧ d.related = [] ∧
        (runCollectorOps st ops).1.linePrimary.lookup line = some d ∧
        ∀ r ∈ rest, r.severity = .ERROR ∧ r.related.map RelatedInfo.span = [d.span]) := by
  induction ops generalizing st with
  | nil => exact Or.inl ⟨rfl, h⟩
  | cons op ops ih =>
      cases op with
      | add code message severity span related =>
          simp only [runCollectorOps, runCollectorOp, collectorAdd]
          rw [lineErrorEmits_cons]
          simp only [reduceCtorEq, if_false]
          exact ih { st with diags := st.diags ++ [⟨code, message, severity, span, related⟩] } h
      | addLineError line2 code message span =>
          by_cases hl : line2 = line
          · subst hl
            simp only [runCollectorOps, runCollectorOp,
              addLineError_of_none st line2 code message span h]
            rw [lineErrorEmits_cons]
            rw [if_pos rfl]
            have hlook2 : (st.linePrimary
                ++ [(line2, (⟨code, message, .ERROR, span, []⟩ : Diagnostic))]).lookup line2
                = some ⟨code, message, .ERROR, span, []⟩ := by
              rw [lookup_append_none _ _ _ h]
              simp [List.lookup]
            have hper := c6_primary_persists ops
              { st with
                diags := st.diags ++ [⟨code, message, .ERROR, span, []⟩]
                linePrimary := st.linePrimary
                  ++ [(line2, ⟨code, message, .ERROR, span, []⟩)] }
              line2 ⟨code, message, .ERROR, span, []⟩ hlook2
            exact Or.inr ⟨_, _, rfl, rfl, rfl, hper.1, hper.2⟩
          · rcases hlook : st.linePrimary.lookup line2 with _ | q
            · simp only [runCollectorOps, runCollectorOp,
                addLineError_of_none st line2 code message span hlook]
              rw [lineErrorEmits_cons]
              have htag : ¬ ((some line2 : Option Nat) = some line) := by simp [hl]
              rw [if_neg htag]
              refine ih _ ?_
              rw [lookup_append_none _ _ _ h]
              have hbeq : (line == line2) = false := by
                simp only [beq_eq_false_iff_ne, ne_eq]
                exact fun hq => hl hq.symm
              simp [List.lookup, hbeq]
            · simp only [runCollectorOps, runCollectorOp,
                addLineError_of_primary st line2 code message span q hlook]
              rw [lineErrorEmits_cons]
              have htag : ¬ ((some line2 : Option Nat) = some line) := by simp [hl]
              rw [if_neg htag]
              exact ih _ h

/-- Claim C6 (amended): restricted to diagnostics reported through
`add_line_error` — the only reporting operation that participates in
line-primary tracking — the first such error-severity diagnostic on a
source line becomes the line primary, and every subsequent
`add_line_error` diagnostic on the same line is emitted with exactly
one related-info whose span is the primary diagnostic's span.
Error-severity diagnostics reported through plain `add` / `add_error`
neither become the primary nor receive the automatic related-info (see
the counterexample to the unrestricted claim). -/
theorem c6_line_primary_linkage (ops : List CollectorOp) (line : Nat) (d : Diagnostic)
    (rest : List Diagnostic)
    (h : lineErrorEmits (runCollectorOps CollectorState.init ops).2 line = d :: rest) :
    d.severity = .ERROR ∧ d.related = [] ∧
    (runCollectorOps CollectorState.init ops).1.linePrimary.lookup line = some d ∧
    ∀ r ∈ rest, r.severity = .ERROR ∧ r.related.map RelatedInfo.span = [d.span] := by
  rcases c6_first_line_error ops .init line rfl with ⟨hnil, _⟩ |
    ⟨d2, rest2, heq, hsev, hrel, hlook, hrest⟩
  · rw [h] at hnil
    cases hnil
  · rw [h] at heq
    obtain ⟨rfl, rfl⟩ : d = d2 ∧ rest = rest2 := by
      have := heq
      injection this with h1 h2
      exact ⟨h1, h2⟩
    exact ⟨hsev, hrel, hlook, hrest⟩

/-- Witness for (amended) C6 at a concrete run with two
`add_line_error` reports on line 2. -/
theorem c6_line_primary_linkage_witness :
    c6HeadDiag.severity = .ERROR ∧ c6HeadDiag.related = [] ∧
    (runCollectorOps CollectorState.init c6WOps).1.linePrimary.lookup 2 = some c6HeadDiag ∧
    ∀ r ∈ [c6SecondDiag], r.severity = .ERROR ∧
      r.related.map RelatedInfo.span = [c6HeadDiag.span] :=
  c6_line_primary_linkage c6WOps 2 c6HeadDiag [c6SecondDiag] (by decide)

/-- Counterexample to C6 as stated: in the run `c6Ops`, the first
error-severity diagnostic reported on line 1 is the L001 one (reported
through `add_error`, exactly as the tokenizer reports L001), yet the
line primary ends up being the second (P003) diagnostic, and that
second error-severity diagnostic on the line is emitted with no
related-info at all — the claim requires exactly one pointing at the
first error's span. -/
theorem c6_counterexample_first_error_not_primary :
    ((runCollectorOps CollectorState.init c6Ops).2.map (fun e => e.2.severity)
        = [.ERROR, .ERROR]) ∧
    ((runCollectorOps CollectorState.init c6Ops).2.map (fun e => e.2.span.start_line)
        = [1, 1]) ∧
    ((runCollectorOps CollectorState.init c6Ops).2.map (fun e => e.2.related)
        = [[], []]) ∧
    ((runCollectorOps CollectorState.init c6Ops).1.linePrimary.lookup 1).map
        (fun d => d.code) = some ("P003") := by
  decide

/-- Claim C8: a write to register 0 persists and is observable on later
reads (register 0 is not hardwired to zero) — executing `OUT $0` after
the write appends the written word to the output buffer — while the
effective address of `off(base)` is `word(v + signed8(off))` where `v`
is 0 when the base index is 0 (even though register 0 holds the written
value) and the current value of the base register otherwise. -/
theorem c8_reg0_writable_and_effective_addr (st : SimState) (v off : Int) (b : Nat)
    (h0 : 0 < st.regs.length) (hb : b < st.regs.length) (hbne : b ≠ 0) :
    (st.setReg 0 v).getReg 0 = word v ∧
    ((st.setReg 0 v).execute ⟨.OUT, [.register 0], "OUT $0", 0⟩).1.output_buffer
        = st.output_buffer ++ [word v] ∧
    (st.setReg 0 v).calc_effective_addr off 0 = word (signed8 off) ∧
    st.calc_effective_addr off b = word ((st.regs.get ⟨b, hb⟩ : Int) + signed8 off) := by
  have hreg : (st.setReg 0 v).getReg 0 = word v := by
    unfold SimState.setReg SimState.getReg
    exact getD_set_self st.regs 0 (word v) 0 h0
  refine ⟨hreg, ?_, ?_, ?_⟩
  · show ((st.setReg 0 v).writeOutput ((st.setReg 0 v).getReg 0)).output_buffer
        = st.output_buffer ++ [word v]
    rw [hreg]
    unfold SimState.writeOutput SimState.setReg
    simp [word_coe_nat (word v) (word_lt v)]
  · unfold SimState.calc_effective_addr
    simp [normalize_imm8_eq_signed8]
  · unfold SimState.calc_effective_addr
    rw [if_neg hbne, normalize_imm8_eq_signed8]
    unfold SimState.getReg
    rw [getD_eq_get st.regs b 0 hb]

/-- Witness for C8 at a concrete state: write 0x1234 into register 0,
observe it through OUT, and evaluate both effective-address shapes. -/
theorem c8_reg0_writable_and_effective_addr_witness :
    (c89St.setReg 0 0x1234).getReg 0 = word 0x1234 ∧
    ((c89St.setReg 0 0x1234).execute ⟨.OUT, [.register 0], "OUT $0", 0⟩).1.output_buffer
        = c89St.output_buffer ++ [word 0x1234] ∧
    (c89St.setReg 0 0x1234).calc_effective_addr 3 0 = word (signed8 3) ∧
    c89St.calc_effective_addr 3 1 = word ((c89St.regs.get ⟨1, by decide⟩ : Int) + signed8 3) :=
  c8_reg0_writable_and_effective_addr c89St 0x1234 3 1 (by decide) (by decide) (by decide)

/-- Claim C9: an executed LD or ST whose effective address falls
outside `[0, mem_size)` raises nothing and reports through the OOB
hook: the LD stores 0 into its destination register and emits one
`"load"` OOB event, the ST leaves the whole state (in particular every
memory cell) unchanged and emits one `"store"` OOB event; an in-bounds
LD or ST emits no OOB event. -/
theorem c9_oob_memory_access (st : SimState) (dest src : Nat) (off : Int) (b : Nat)
    (textL textS : String) (hd : dest < st.regs.length) :
    (st.mem_size ≤ st.calc_effective_addr off b →
      st.execute ⟨.LD, [.register dest, .address off b], textL, 0⟩
          = (st.setReg dest 0, [st.mkOob ("load") (st.calc_effective_addr off b)]) ∧
      (st.execute ⟨.LD, [.register dest, .address off b], textL, 0⟩).1.regs.getD dest 0 = 0 ∧
      st.execute ⟨.ST, [.register src, .address off b], textS, 0⟩
          = (st, [st.mkOob ("store") (st.calc_effective_addr off b)])) ∧
    (st.calc_effective_addr off b < st.mem_size →
      (st.execute ⟨.LD, [.register dest, .address off b], textL, 0⟩).2 = [] ∧
      (st.execute ⟨.ST, [.register src, .address off b], textS, 0⟩).2 = []) := by
  constructor
  · intro hoob
    have hcond : ¬ (0 ≤ st.calc_effective_addr off b ∧
        st.calc_effective_addr off b < st.mem_size) := by
      rintro ⟨_, hlt⟩; omega
    refine ⟨?_, ?_, ?_⟩
    · show (st.setReg dest (st.loadMem (st.calc_effective_addr off b)).1,
          (st.loadMem (st.calc_effective_addr off b)).2)
        = (st.setReg dest 0, [st.mkOob ("load") (st.calc_effective_addr off b)])
      unfold SimState.loadMem
      rw [if_neg hcond]
      rfl
    · show (st.setReg dest (st.loadMem (st.calc_effective_addr off b)).1).regs.getD dest 0 = 0
      unfold SimState.loadMem
      rw [if_neg hcond]
      unfold SimState.setReg
      have : word ((0 : Nat) : Int) = 0 := by rfl
      rw [this]
      exact getD_set_self st.regs dest 0 0 hd
    · show st.setMem (st.calc_effective_addr off b) (st.getReg src)
          = (st, [st.mkOob ("store") (st.calc_effective_addr off b)])
      unfold SimState.setMem
      rw [if_neg hcond]
  · intro hin
    have hcond : 0 ≤ st.calc_effective_addr off b ∧
        st.calc_effective_addr off b < st.mem_size := ⟨Nat.zero_le _, hin⟩
    constructor
    · show (st.setReg dest (st.loadMem (st.calc_effective_addr off b)).1,
          (st.loadMem (st.calc_effective_addr off b)).2).2 = []
      unfold SimState.loadMem
      rw [if_pos hcond]
    · show (st.setMem (st.calc_effective_addr off b) (st.getReg src)).2 = []
      unfold SimState.setMem
      rw [if_pos hcond]

/-- Witness for C9 at a concrete state: `250($1)` reaches address 34
(out of bounds for a 3-cell memory) and `0($1)` reaches address 40 —
so use `220($1)` (address 4) for the OOB half and `0($2)` (address 0)
for the in-bounds half. -/
theorem c9_oob_memory_access_witness :
    (c89St.execute ⟨.LD, [.register 1, .address 220 1], "LD $1, 220($1)", 0⟩
        = (c89St.setReg 1 0, [c89St.mkOob ("load") (c89St.calc_effective_addr 220 1)]) ∧
      (c89St.execute ⟨.ST, [.register 0, .address 220 1], "ST $0, 220($1)", 0⟩).2
        = [c89St.mkOob ("store") (c89St.calc_effective_addr 220 1)]) ∧
    (c89St.execute ⟨.LD, [.register 1, .address 0 2], "LD $1, 0($2)", 0⟩).2 = [] := by
  have h := c9_oob_memory_access c89St 1 0 220 1 ("LD $1, 220($1)") ("ST $0, 220($1)")
    (by decide)
  have h2 := c9_oob_memory_access c89St 1 0 0 2 ("LD $1, 0($2)") ("ST $1, 0($2)")
    (by decide)
  have hoob : c89St.mem_size ≤ c89St.calc_effective_addr 220 1 := by decide
  have hin : c89St.calc_effective_addr 0 2 < c89St.mem_size := by decide
  exact ⟨⟨(h.1 hoob).1, ((h.1 hoob).2.2 ▸ rfl : _)⟩, (h2.2 hin).1⟩

theorem leavesScc_iff (full : List Nat) (pc : Nat) (e : CFGEdge) :
    leavesScc full pc e = true ↔
      e.source = pc ∧ (∀ q ∈ full, (q : Int) ≠ e.target) ∧ 0 ≤ e.target := by
  simp [leavesScc, List.all_eq_true, and_assoc]

theorem sccScan_false_iff (cfg : CFG) (full : List Nat) :
    ∀ l : List Nat, sccScan cfg full l = (false, false) ↔
      ∀ pc ∈ l, ¬ pc ∈ cfg.exit_pcs ∧ cfg.edges.any (leavesScc full pc) = false := by
  intro l
  induction l with
  | nil => simp [sccScan]
  | cons pc rest ih =>
      rw [sccScan]
      by_cases hex : pc ∈ cfg.exit_pcs
      · rw [if_pos hex]
        simp [hex]
      · rw [if_neg hex]
        by_cases hany : cfg.edges.any (leavesScc full pc) = true
        · rw [if_pos hany]
          constructor
          · intro habs
            simp at habs
          · intro hall
            have hcontr := (hall pc (List.mem_cons_self pc rest)).2
            rw [hcontr] at hany
            cases hany
        · rw [if_neg hany]
          have hf : cfg.edges.any (leavesScc full pc) = false :=
            Bool.eq_false_iff.2 hany
          rw [ih]
          constructor
          · intro hall pc2 hpc2
            rcases List.mem_cons.1 hpc2 with rfl | hpc2
            · exact ⟨hex, hf⟩
            · exact hall pc2 hpc2
          · intro hall pc2 hpc2
            exact hall pc2 (List.mem_cons_of_mem _ hpc2)

theorem sccQualifies_iff (cfg : CFG) (scc : List Nat) :
    sccQualifies cfg scc = true ↔
      ((scc.length ≤ 1 → ∃ pc, scc.head? = some pc ∧
          ∃ e ∈ cfg.edges, e.source = pc ∧ e.target = (pc : Int)) ∧
       (∀ pc ∈ scc, ¬ pc ∈ cfg.exit_pcs) ∧
       (∀ pc ∈ scc, ∀ e ∈ cfg.edges, e.source = pc → 0 ≤ e.target →
          ∃ q ∈ scc, (q : Int) = e.target)) := by
  unfold sccQualifies
  rw [Bool.and_eq_true]
  have hscan : (let p := sccScan cfg scc scc
      (!p.1 && !p.2)) = true ↔ sccScan cfg scc scc = (false, false) := by
    cases hp : sccScan cfg scc scc with
    | mk a b => cases a <;> cases b <;> simp
  rw [hscan, sccScan_false_iff]
  have hfst : (if scc.length ≤ 1 then
        match scc.head? with
        | some pc => cfg.edges.any (fun e => e.source == pc && e.target == (pc : Int))
        | none => false
      else true) = true ↔
      (scc.length ≤ 1 → ∃ pc, scc.head? = some pc ∧
        ∃ e ∈ cfg.edges, e.source = pc ∧ e.target = (pc : Int)) := by
    by_cases hlen : scc.length ≤ 1
    · rw [if_pos hlen]
      cases hh : scc.head? with
      | none =>
          simp only [hh]
          constructor
          · intro hfalse
            cases hfalse
          · intro hq
            rcases hq hlen with ⟨pc, hpc, _⟩
            cases hpc
      | some pc =>
          simp only [hh]
          rw [List.any_eq_true]
          constructor
          · rintro ⟨e, he, hprop⟩
            rw [Bool.and_eq_true, beq_iff_eq, beq_iff_eq] at hprop
            exact fun _ => ⟨pc, rfl, e, he, hprop⟩
          · intro hq
            rcases hq hlen with ⟨pc2, hpc2, e, he, h1, h2⟩
            obtain rfl : pc = pc2 := by injection hpc2
            exact ⟨e, he, by rw [Bool.and_eq_true, beq_iff_eq, beq_iff_eq]; exact ⟨h1, h2⟩⟩
    · rw [if_neg hlen]
      simp [hlen]
  rw [hfst]
  constructor
  · rintro ⟨h1, h2⟩
    refine ⟨h1, fun pc hpc => (h2 pc hpc).1, fun pc hpc e he hsrc htgt => ?_⟩
    have hany := (h2 pc hpc).2
    rw [List.any_eq_false] at hany
    have hthis := hany e he
    rw [leavesScc_iff] at hthis
    push_neg at hthis
    have h4 := hthis hsrc
    by_contra hno
    push_neg at hno
    have h5 := h4 (fun q hq => hno q hq)
    omega
  · rintro ⟨h1, h2, h3⟩
    refine ⟨h1, fun pc hpc => ⟨h2 pc hpc, ?_⟩⟩
    rw [List.any_eq_false]
    intro e he habs
    rw [leavesScc_iff] at habs
    rcases habs with ⟨hsrc, hall, htgt⟩
    rcases h3 pc hpc e he hsrc htgt with ⟨q, hq, hqt⟩
    exact hall q hq hqt

/-- When no two offending SCCs resolve to the same source line, the
per-line deduplication of the checker's C010 loop never fires, and the
loop emits exactly `c010For` of each SCC in order. -/
theorem checkCfgC010Loop_eq_filterMap (cfg : CFG) (p2l : List (Nat × Nat))
    (spans : List (Nat × SourceSpan)) :
    ∀ (l : List (List Nat)) (rep : List Nat),
      (∀ ln ∈ rep, ∀ scc ∈ l, p2l.lookup (listMinNat scc) ≠ some ln) →
      (l.filterMap (fun scc => p2l.lookup (listMinNat scc))).Pairwise (· ≠ ·) →
      checkCfgC010Loop cfg p2l spans l rep = l.filterMap (c010For cfg p2l spans) := by
  intro l
  induction l with
  | nil => intro rep _ _; rfl
  | cons scc rest ih =>
      intro rep hrep hpair
      rw [checkCfgC010Loop, List.filterMap_cons]
      cases hlk : p2l.lookup (listMinNat scc) with
      | none =>
          have hce : c010For cfg p2l spans scc = none := by
            simp [c010For, hlk]
          rw [hce]
          rw [List.filterMap_cons, hlk] at hpair
          exact ih rep (fun ln hln scc2 hscc2 => hrep ln hln scc2 (List.mem_cons_of_mem _ hscc2))
            hpair
      | some ln =>
          have hnotrep : ¬ ln ∈ rep := fun hmem =>
            hrep ln hmem scc (List.mem_cons_self scc rest) hlk
          dsimp only
          rw [if_neg hnotrep]
          rw [List.filterMap_cons, hlk] at hpair
          have hpair2 := List.Pairwise.of_cons hpair
          have hnew : ∀ ln2 ∈ rep ++ [ln], ∀ scc2 ∈ rest,
              p2l.lookup (listMinNat scc2) ≠ some ln2 := by
            intro ln2 hln2 scc2 hscc2
            rcases List.mem_append.1 hln2 with hln2 | hln2
            · exact hrep ln2 hln2 scc2 (List.mem_cons_of_mem _ hscc2)
            · have he : ln2 = ln := by simpa using hln2
              intro habs
              have hmem : ln2 ∈ rest.filterMap (fun scc => p2l.lookup (listMinNat scc)) :=
                List.mem_filterMap.2 ⟨scc2, hscc2, habs⟩
              rw [he] at hmem
              exact (List.rel_of_pairwise_cons hpair hmem) rfl
          cases hsp : spans.lookup ln with
          | none =>
              have hce : c010For cfg p2l spans scc = none := by
                simp [c010For, hlk, hsp]
              rw [hce]
              exact ih (rep ++ [ln]) hnew hpair2
          | some span =>
              have hce : c010For cfg p2l spans scc
                  = some ⟨"C010", c010Message cfg scc, .ERROR, span, []⟩ := by
                simp [c010For, hlk, hsp]
              rw [hce]
              exact congrArg (List.cons _) (ih (rep ++ [ln]) hnew hpair2)

/-- Claim C7: a C010 error is reported for exactly those strongly
connected components of the CFG (as computed by the source's Tarjan
pass, which the spec fixes as the definition of the CFG's SCCs) that
contain no exit pc and no edge from a pc inside the SCC to a
nonnegative target outside it, a single-node SCC qualifying only with
a self-loop; and — whenever distinct offending SCCs resolve to
distinct source lines, so the per-line dedup set never fires — each
error is emitted via `c010For`, i.e. placed at the span of the line of
the offending SCC's lowest pc. -/
theorem c7_infinite_loop_reporting (cfg : CFG) (p2l : List (Nat × Nat))
    (spans : List (Nat × SourceSpan))
    (hdist : ((find_infinite_loop_sccs cfg).filterMap
        (fun scc => p2l.lookup (listMinNat scc))).Pairwise (· ≠ ·)) :
    (∀ scc, scc ∈ find_infinite_loop_sccs cfg ↔
        scc ∈ find_strongly_connected_components cfg ∧
        (scc.length ≤ 1 → ∃ pc, scc.head? = some pc ∧
            ∃ e ∈ cfg.edges, e.source = pc ∧ e.target = (pc : Int)) ∧
        (∀ pc ∈ scc, ¬ pc ∈ cfg.exit_pcs) ∧
        (∀ pc ∈ scc, ∀ e ∈ cfg.edges, e.source = pc → 0 ≤ e.target →
            ∃ q ∈ scc, (q : Int) = e.target)) ∧
    check_cfg_c010 cfg p2l spans
      = (find_infinite_loop_sccs cfg).filterMap (c010For cfg p2l spans) := by
  constructor
  · intro scc
    rw [find_infinite_loop_sccs, List.mem_filter, sccQualifies_iff]
  · exact checkCfgC010Loop_eq_filterMap cfg p2l spans (find_infinite_loop_sccs cfg) []
      (fun ln hln => absurd hln (List.not_mem_nil ln)) hdist

/-- Witness for C7 at the one-instruction self-loop CFG: its single
SCC `{0}` is offending, and the checker emits exactly one C010 at the
span of pc 0's line. -/
theorem c7_infinite_loop_reporting_witness :
    [0] ∈ find_infinite_loop_sccs c7Cfg ∧
    check_cfg_c010 c7Cfg c7P2l c7Spans
      = (find_infinite_loop_sccs c7Cfg).filterMap (c010For c7Cfg c7P2l c7Spans) := by
  have h := c7_infinite_loop_reporting c7Cfg c7P2l c7Spans (by decide)
  exact ⟨(h.1 [0]).2 (by decide), h.2⟩

end SNX
